import Mathlib

/-!
Shallow embedding of the statistical dashboard core of the oura-mcp-server
repository (src/src/core/dashboards.ts, the series decoder concatenated to it,
and the insight summarizer analyzeHealthData), together with theorems settling
the frozen claims about it.

Modelling conventions:

* JavaScript numbers are modelled as exact rationals (ℚ).  The only
  floating-point operation the core performs that leaves ℚ is `Math.sqrt`
  inside `pearson`; that single value is modelled in ℝ with `Real.sqrt`, so
  correlation coefficients are `Option ℝ` (null ↦ `none`).
* Calendar day strings `YYYY-MM-DD` are modelled as integers (the day number
  in the proleptic UTC calendar).  The source's `addDays` performs UTC
  calendar arithmetic on the string, which under the bijection between
  fixed-format day strings and day numbers is exactly integer addition, and
  `localeCompare` ordering of the fixed-format strings is exactly the numeric
  order of day numbers.
* ISO timestamps are likewise modelled as integer epoch seconds; the source's
  `addSecondsIso` is integer addition of seconds.
* Absent values (`undefined` / `null` in JS) are `Option.none`; the source's
  `isNumber` guard (`typeof v === "number" && Number.isFinite(v)`) becomes
  `Option.isSome`, since every ℚ is finite.
-/

namespace Oura

/-- Arithmetic mean; empty input yields 0 (source `average`, dashboards.ts
lines 131-134). -/
def average (values : List ℚ) : ℚ :=
  if values.length = 0 then 0 else values.sum / values.length

/-- Sorted middle value; even-length lists average the two central values and
the empty list yields null (source `median`, dashboards.ts lines 136-142). -/
def median (values : List ℚ) : Option ℚ :=
  if values.length = 0 then none
  else
    let sorted := values.mergeSort (fun a b => decide (a ≤ b))
    let mid := sorted.length / 2
    if sorted.length % 2 = 0 then
      some ((sorted.getD (mid - 1) 0 + sorted.getD mid 0) / 2)
    else some (sorted.getD mid 0)

/-- Calendar-day addition (source `addDays`, dashboards.ts lines 144-148).
The source adds `delta` days to a `YYYY-MM-DD` string via UTC `Date`
arithmetic; on day numbers this is integer addition. -/
def addDays (day : ℤ) (delta : ℤ) : ℤ := day + delta

/-- One run-splitting step of the rank transform's tie-grouping `while` loop
(source `rank`, dashboards.ts lines 154-168).  Processes the sorted
`(value, originalIndex)` list, emitting for every maximal run of equal values
one `(originalIndex, averageRank)` assignment per member;
`pos` is the zero-based sorted position where the current run starts.  The
`fuel` argument only bounds the recursion depth (the source loop terminates
because each iteration advances past one nonempty run); all callers supply
`fuel ≥ length` so the fuel never runs out. -/
def rankRuns (fuel : ℕ) (l : List (ℚ × ℕ)) (pos : ℕ) : List (ℕ × ℚ) :=
  match fuel, l with
  | 0, _ => []
  | _, [] => []
  | fuel + 1, (v, i0) :: rest =>
      let run := rest.takeWhile (fun p => decide (p.1 = v))
      let len := run.length + 1
      let avg : ℚ := (((pos : ℚ) + ((pos + len : ℕ) : ℚ) - 1) / 2) + 1
      ((i0, avg) :: run.map (fun p => (p.2, avg)))
        ++ rankRuns fuel (rest.dropWhile (fun p => decide (p.1 = v))) (pos + len)

/-- Rank transform with average-rank tie handling (source `rank`,
dashboards.ts lines 154-168): pair each value with its index, sort stably by
value, walk the sorted list grouping runs of equal values, and write the
run's average one-based rank back into the `ranks` array at each member's
original index.  The result array is modelled as a list initialised with 0
(the source's array holes are all overwritten, since the runs partition the
indices). -/
def rank (values : List ℚ) : List ℚ :=
  let indexed := (values.enum.map (fun p => (p.2, p.1))).mergeSort
    (fun a b => decide (a.1 ≤ b.1))
  (rankRuns indexed.length indexed 0).foldl
    (fun acc p => acc.set p.1 p.2) (List.replicate values.length 0)

open scoped Classical in
/-- Pearson correlation (source `pearson`, dashboards.ts lines 170-187):
null when the lengths differ or there are fewer than 5 points; otherwise
`num / sqrt(denX * denY)`, null when that denominator is zero. -/
noncomputable def pearson (xs ys : List ℚ) : Option ℝ :=
  if xs.length = ys.length ∧ 5 ≤ xs.length then
    let meanX := average xs
    let meanY := average ys
    let num : ℚ := ((xs.zip ys).map (fun p => (p.1 - meanX) * (p.2 - meanY))).sum
    let denX : ℚ := (xs.map (fun x => (x - meanX) * (x - meanX))).sum
    let denY : ℚ := (ys.map (fun y => (y - meanY) * (y - meanY))).sum
    let den : ℝ := Real.sqrt ((denX * denY : ℚ) : ℝ)
    if den = 0 then none else some (((num : ℚ) : ℝ) / den)
  else none

/-- Spearman correlation (source `spearman`, dashboards.ts lines 189-194):
null when lengths differ or fewer than 5 points, else Pearson on the ranks. -/
noncomputable def spearman (xs ys : List ℚ) : Option ℝ :=
  if xs.length = ys.length ∧ 5 ≤ xs.length then pearson (rank xs) (rank ys)
  else none

/-- Correlation method selector (source `CorrelationMethod` and `correlate`,
dashboards.ts lines 21 and 196-198). -/
inductive CorrelationMethod
  | spearman
  | pearson
deriving DecidableEq, Repr

/-- Dispatch on the correlation method (source `correlate`). -/
noncomputable def correlate (method : CorrelationMethod) (xs ys : List ℚ) :
    Option ℝ :=
  match method with
  | .spearman => spearman xs ys
  | .pearson => pearson xs ys

/-- Qualifying index pairs of two parallel optional-value arrays: positions
up to the shorter length where both values are present (source `pairwise`,
dashboards.ts lines 200-213, which pushes `(xs[i], ys[i])` exactly at those
positions). -/
def pairwisePairs (xs ys : List (Option ℚ)) : List (ℚ × ℚ) :=
  (xs.zip ys).filterMap (fun p => p.1.bind (fun a => p.2.map (fun b => (a, b))))

/-- Pairwise-complete extraction (source `pairwise`): the two dense arrays
built from the qualifying positions. -/
def pairwise (xs ys : List (Option ℚ)) : List ℚ × List ℚ :=
  ((pairwisePairs xs ys).map Prod.fst, (pairwisePairs xs ys).map Prod.snd)

/-- Windowed detrending (source `detrend`, dashboards.ts lines 215-228): for
every present value, subtract the mean of the present values in the trailing
window of `window` days ending at (and including) the current day; absent
values stay absent.  The source's `slice.length === 0` guard is kept although
the slice always contains the current value. -/
def detrend (values : List (Option ℚ)) (window : ℕ := 7) : List (Option ℚ) :=
  (List.range values.length).map (fun i =>
    match values.getD i none with
    | none => none
    | some v =>
        let start := i + 1 - window
        let slice := ((List.range' start (i + 1 - start)).filterMap
          (fun j => values.getD j none))
        if slice.length = 0 then none else some (v - average slice))

/-- Unified per-day row (source `DailyRow`, dashboards.ts lines 23-56).
Optional fields model the source's optional properties; `day` is the day
number and the two bedtime bounds are epoch-second timestamps. -/
structure DailyRow where
  day : ℤ
  sleep_score : Option ℚ := none
  activity_score : Option ℚ := none
  readiness_score : Option ℚ := none
  stress_high_min : Option ℚ := none
  recovery_high_min : Option ℚ := none
  steps : Option ℚ := none
  total_calories : Option ℚ := none
  active_calories : Option ℚ := none
  resilience_level : Option String := none
  spo2_avg : Option ℚ := none
  breathing_disturbance_index : Option ℚ := none
  cardiovascular_age : Option ℚ := none
  vo2_max : Option ℚ := none
  sleep_duration_h : Option ℚ := none
  sleep_efficiency : Option ℚ := none
  avg_hr : Option ℚ := none
  avg_hrv : Option ℚ := none
  temperature_delta : Option ℚ := none
  respiratory_rate : Option ℚ := none
  deep_pct : Option ℚ := none
  rem_pct : Option ℚ := none
  light_pct : Option ℚ := none
  awake_pct : Option ℚ := none
  bedtime_start : Option ℤ := none
  bedtime_end : Option ℤ := none
  bedtime_clock_min : Option ℚ := none
  wake_clock_min : Option ℚ := none
  midsleep_clock_min : Option ℚ := none
  bedtime_deviation_min : Option ℚ := none
  workout_count : Option ℚ := none
  workout_intensity_score : Option ℚ := none
deriving DecidableEq

/-- Numeric metric keys of `DailyRow` used by the correlation and lag
engines (the source indexes rows dynamically with `keyof DailyRow`). -/
inductive MetricKey
  | sleep_score
  | readiness_score
  | activity_score
  | stress_high_min
  | recovery_high_min
  | steps
  | avg_hrv
  | avg_hr
  | sleep_duration_h
  | sleep_efficiency
  | deep_pct
  | rem_pct
  | bedtime_clock_min
  | workout_intensity_score
  | spo2_avg
  | breathing_disturbance_index
  | vo2_max
  | cardiovascular_age
deriving DecidableEq, Repr

/-- Dynamic field access `row[key]` for the numeric metric keys. -/
def rowGet (r : DailyRow) : MetricKey → Option ℚ
  | .sleep_score => r.sleep_score
  | .readiness_score => r.readiness_score
  | .activity_score => r.activity_score
  | .stress_high_min => r.stress_high_min
  | .recovery_high_min => r.recovery_high_min
  | .steps => r.steps
  | .avg_hrv => r.avg_hrv
  | .avg_hr => r.avg_hr
  | .sleep_duration_h => r.sleep_duration_h
  | .sleep_efficiency => r.sleep_efficiency
  | .deep_pct => r.deep_pct
  | .rem_pct => r.rem_pct
  | .bedtime_clock_min => r.bedtime_clock_min
  | .workout_intensity_score => r.workout_intensity_score
  | .spo2_avg => r.spo2_avg
  | .breathing_disturbance_index => r.breathing_disturbance_index
  | .vo2_max => r.vo2_max
  | .cardiovascular_age => r.cardiovascular_age

/-- String label of a metric key (source `keys.map(String)`). -/
def keyLabel : MetricKey → String
  | .sleep_score => "sleep_score"
  | .readiness_score => "readiness_score"
  | .activity_score => "activity_score"
  | .stress_high_min => "stress_high_min"
  | .recovery_high_min => "recovery_high_min"
  | .steps => "steps"
  | .avg_hrv => "avg_hrv"
  | .avg_hr => "avg_hr"
  | .sleep_duration_h => "sleep_duration_h"
  | .sleep_efficiency => "sleep_efficiency"
  | .deep_pct => "deep_pct"
  | .rem_pct => "rem_pct"
  | .bedtime_clock_min => "bedtime_clock_min"
  | .workout_intensity_score => "workout_intensity_score"
  | .spo2_avg => "spo2_avg"
  | .breathing_disturbance_index => "breathing_disturbance_index"
  | .vo2_max => "vo2_max"
  | .cardiovascular_age => "cardiovascular_age"

/-- Correlation matrix result (source `CorrelationMatrix`, dashboards.ts
lines 58-63). -/
structure CorrelationMatrix where
  method : CorrelationMethod
  labels : List String
  matrix : List (List (Option ℝ))
  counts : List (List ℕ)

/-- Full pairwise-complete correlation matrix over a fixed key list (source
`correlationMatrix`, dashboards.ts lines 230-254): cell (i, j) correlates the
pairwise-complete extraction of metric i's series against metric j's. -/
noncomputable def correlationMatrix (rows : List DailyRow)
    (keys : List MetricKey) (method : CorrelationMethod) : CorrelationMatrix :=
  let valuesByKey := keys.map (fun k => rows.map (fun r => rowGet r k))
  { method := method
    labels := keys.map keyLabel
    matrix := valuesByKey.map (fun vi => valuesByKey.map (fun vj =>
      correlate method (pairwise vi vj).1 (pairwise vi vj).2))
    counts := valuesByKey.map (fun vi => valuesByKey.map (fun vj =>
      (pairwise vi vj).1.length)) }

/-- Detrended correlation matrix (source `correlationMatrixDetrended`,
dashboards.ts lines 256-280): identical to `correlationMatrix` except every
metric's series is windowed-detrended first. -/
noncomputable def correlationMatrixDetrended (rows : List DailyRow)
    (keys : List MetricKey) (method : CorrelationMethod) : CorrelationMatrix :=
  let valuesByKey := keys.map (fun k => detrend (rows.map (fun r => rowGet r k)))
  { method := method
    labels := keys.map keyLabel
    matrix := valuesByKey.map (fun vi => valuesByKey.map (fun vj =>
      correlate method (pairwise vi vj).1 (pairwise vi vj).2))
    counts := valuesByKey.map (fun vi => valuesByKey.map (fun vj =>
      (pairwise vi vj).1.length)) }

/-- One lag entry (source `LagCorrelation`, dashboards.ts lines 65-69). -/
structure LagCorrelation where
  lag : ℤ
  r : Option ℝ
  n : ℕ

/-- JS `Map` lookup for the `byDay` map built from a row list: the map keeps
the LAST binding for each key, so lookup is the last row with the given day. -/
def byDayGet (rows : List DailyRow) (d : ℤ) : Option DailyRow :=
  rows.reverse.find? (fun r => decide (r.day = d))

/-- Qualifying pairs of the lag loop (source `lagCorrelation`, dashboards.ts
lines 282-307): for every row whose x-metric is present and whose target day
`addDays(row.day, lag)` has a row with the y-metric present, the pair of
those two values, in row order. -/
def lagPairs (rows : List DailyRow) (xKey yKey : MetricKey) (lag : ℤ) :
    List (ℚ × ℚ) :=
  rows.filterMap (fun row =>
    (rowGet row xKey).bind (fun x =>
      ((byDayGet rows (addDays row.day lag)).bind (fun t => rowGet t yKey)).map
        (fun y => (x, y))))

/-- Lag-shifted correlation (source `lagCorrelation`): correlate the x values
with the y values of the rows `lag` calendar days later. -/
noncomputable def lagCorrelation (rows : List DailyRow) (xKey yKey : MetricKey)
    (lag : ℤ) (method : CorrelationMethod) : LagCorrelation :=
  let pairs := lagPairs rows xKey yKey lag
  { lag := lag
    r := correlate method (pairs.map Prod.fst) (pairs.map Prod.snd)
    n := (pairs.map Prod.fst).length }

/-- Lag analysis result (source `LagAnalysis`, dashboards.ts lines 71-79). -/
structure LagAnalysis where
  id : String
  title : String
  xKey : MetricKey
  yKey : MetricKey
  lags : List LagCorrelation
  best_lag : Option ℤ
  best_r : Option ℝ

/-- Strict precedence of the best-lag sort comparator (source
`computeLagAnalysis`, dashboards.ts lines 322-328): `a` sorts strictly before
`b` iff `a` has larger `|r|`, or equal `|r|` and larger lag (`r` read with
the `?? 0` default, which after the non-null filter never fires). -/
def lagBetter (a b : LagCorrelation) : Prop :=
  |a.r.getD 0| > |b.r.getD 0| ∨ (|a.r.getD 0| = |b.r.getD 0| ∧ a.lag > b.lag)

open scoped Classical in
/-- One step of scanning for the first maximal candidate: keep the current
best unless the next entry sorts strictly before it. -/
noncomputable def pickStep (acc : Option LagCorrelation) (l : LagCorrelation) :
    Option LagCorrelation :=
  match acc with
  | none => some l
  | some a => if lagBetter l a then some l else some a

/-- First element of the stable sort by `lagBetter`, i.e. the first maximal
candidate: the fold keeps the current best unless a later entry is strictly
better (source `[0]` of the stable `sort`). -/
noncomputable def pickBest (candidates : List LagCorrelation) :
    Option LagCorrelation :=
  candidates.foldl pickStep none

/-- Lag search (source `computeLagAnalysis`, dashboards.ts lines 309-339):
one `lagCorrelation` per lag from `-maxLag` to `+maxLag`, then the best lag
among the entries with non-null `r` by largest `|r|`, ties preferring the
larger lag. -/
noncomputable def computeLagAnalysis (rows : List DailyRow)
    (xKey yKey : MetricKey) (maxLag : ℤ) (method : CorrelationMethod)
    (id title : String) : LagAnalysis :=
  let lagList := (List.range (2 * maxLag + 1).toNat).map
    (fun i => -maxLag + (i : ℤ))
  let lags := lagList.map (fun lag => lagCorrelation rows xKey yKey lag method)
  let best := pickBest (lags.filter (fun l => l.r.isSome))
  { id := id
    title := title
    xKey := xKey
    yKey := yKey
    lags := lags
    best_lag := best.map (·.lag)
    best_r := best.bind (·.r) }

/-- JS nullish coalescing `a ?? b`. -/
def jsCoalesce {α : Type} (a b : Option α) : Option α :=
  match a with
  | some v => some v
  | none => b

/-- Truncation toward zero, the rounding JS uses for `%`. -/
def jsTrunc (q : ℚ) : ℤ :=
  if 0 ≤ q then ⌊q⌋ else ⌈q⌉

/-- JS remainder `x % n` (sign of the dividend). -/
def jsMod (x n : ℚ) : ℚ :=
  x - n * (jsTrunc (x / n) : ℚ)

/-- UTC clock minutes since midnight of a timestamp (source `clockMinutes`,
dashboards.ts lines 341-345): `getUTCHours() * 60 + getUTCMinutes()`, which
for epoch seconds is the seconds-of-day divided by 60, floored. -/
def clockMinutes (iso : Option ℤ) : Option ℚ :=
  match iso with
  | none => none
  | some t => some (((t.emod 86400) / 60 : ℤ) : ℚ)

/-- UTC weekday of a day number (`getUTCDay`): 0 is Sunday; day 0
(1970-01-01) was a Thursday (4). -/
def dayOfWeek (d : ℤ) : ℤ :=
  (d + 4).emod 7

/-- Daily sleep record, the fields the core reads (source `DailySleep`). -/
structure DailySleepRec where
  day : ℤ
  score : ℚ

/-- Daily activity record, the fields the core reads (source
`DailyActivity`). -/
structure DailyActivityRec where
  day : ℤ
  score : ℚ
  steps : ℚ
  total_calories : ℚ
  active_calories : ℚ

/-- Daily readiness record, the fields the core reads (source
`DailyReadiness`). -/
structure DailyReadinessRec where
  day : ℤ
  score : ℚ

/-- Daily stress record, the fields the core reads (source `DailyStress`);
`day_summary` is `"restored" | "normal" | "stressed" | null`. -/
structure DailyStressRec where
  day : ℤ
  stress_high : ℚ
  recovery_high : ℚ
  day_summary : Option String

/-- Daily resilience record, the fields the core reads (source
`DailyResilience`). -/
structure DailyResilienceRec where
  day : ℤ
  level : String

/-- Daily SpO2 record, the fields the core reads (source `DailySpo2`):
`spo2_avg` models the optional-chained `spo2_percentage?.average` and the
breathing disturbance index may be null. -/
structure DailySpo2Rec where
  day : ℤ
  spo2_avg : Option ℚ
  breathing_disturbance_index : Option ℚ

/-- Daily cardiovascular age record (source `DailyCardiovascularAge`). -/
structure DailyCardioAgeRec where
  day : ℤ
  cardiovascular_age : ℚ

/-- VO2 max record (source `VO2Max`). -/
structure VO2MaxRec where
  day : ℤ
  vo2_max : ℚ

/-- Workout record, the fields the core reads (source `Workout`);
`intensity` is `"easy" | "moderate" | "hard"`. -/
structure WorkoutRec where
  day : ℤ
  intensity : String
  activity : String

/-- Detailed sleep record, the fields the core reads (source `Sleep`);
optional fields model the source's defensive `??` / truthiness handling. -/
structure SleepRec where
  day : ℤ
  bedtime_start : Option ℤ
  bedtime_end : Option ℤ
  total_sleep_duration : Option ℚ
  deep_sleep_duration : ℚ
  light_sleep_duration : ℚ
  rem_sleep_duration : ℚ
  awake_time : Option ℚ
  efficiency : Option ℚ
  average_heart_rate : Option ℚ
  average_hrv : Option ℚ
  temperature_delta : Option ℚ
  respiratory_rate : Option ℚ

/-- Input of `buildDashboards` (source lines 364-377). -/
structure DashboardsInput where
  sleep : List DailySleepRec
  activity : List DailyActivityRec
  readiness : List DailyReadinessRec
  stress : List DailyStressRec
  resilience : List DailyResilienceRec
  spo2 : List DailySpo2Rec
  cardioAge : List DailyCardioAgeRec
  vo2Max : List VO2MaxRec
  workouts : List WorkoutRec
  sleepDetailed : List SleepRec
  correlationMethod : CorrelationMethod
  maxLagDays : ℤ

/-- One loop iteration over a category record: `ensureRow(day)` (get the
existing row of the insertion-ordered map, or append a fresh row holding only
the day) followed by the loop body's field assignments `f` (source
`ensureRow`, dashboards.ts lines 380-386, plus the per-category loops). -/
def upsertRow (m : List DailyRow) (day : ℤ) (f : DailyRow → DailyRow) :
    List DailyRow :=
  if (m.find? (fun r => decide (r.day = day))).isSome then
    m.map (fun r => if r.day = day then f r else r)
  else m ++ [f { day := day }]

/-- Sleep-score loop (source lines 388-391). -/
def mergeSleep (recs : List DailySleepRec) (m : List DailyRow) : List DailyRow :=
  recs.foldl (fun acc d => upsertRow acc d.day
    (fun row => { row with sleep_score := some d.score })) m

/-- Activity loop (source lines 393-399). -/
def mergeActivity (recs : List DailyActivityRec) (m : List DailyRow) :
    List DailyRow :=
  recs.foldl (fun acc d => upsertRow acc d.day
    (fun row => { row with
      activity_score := some d.score
      steps := some d.steps
      total_calories := some d.total_calories
      active_calories := some d.active_calories })) m

/-- Readiness loop (source lines 401-404). -/
def mergeReadiness (recs : List DailyReadinessRec) (m : List DailyRow) :
    List DailyRow :=
  recs.foldl (fun acc d => upsertRow acc d.day
    (fun row => { row with readiness_score := some d.score })) m

/-- Stress loop (source lines 406-410): seconds are converted to minutes. -/
def mergeStress (recs : List DailyStressRec) (m : List DailyRow) :
    List DailyRow :=
  recs.foldl (fun acc d => upsertRow acc d.day
    (fun row => { row with
      stress_high_min := some (d.stress_high / 60)
      recovery_high_min := some (d.recovery_high / 60) })) m

/-- Resilience loop (source lines 412-415). -/
def mergeResilience (recs : List DailyResilienceRec) (m : List DailyRow) :
    List DailyRow :=
  recs.foldl (fun acc d => upsertRow acc d.day
    (fun row => { row with resilience_level := some d.level })) m

/-- SpO2 loop (source lines 417-421): both assignments may store an absent
value. -/
def mergeSpo2 (recs : List DailySpo2Rec) (m : List DailyRow) : List DailyRow :=
  recs.foldl (fun acc d => upsertRow acc d.day
    (fun row => { row with
      spo2_avg := d.spo2_avg
      breathing_disturbance_index := d.breathing_disturbance_index })) m

/-- Cardiovascular-age loop (source lines 423-426). -/
def mergeCardioAge (recs : List DailyCardioAgeRec) (m : List DailyRow) :
    List DailyRow :=
  recs.foldl (fun acc d => upsertRow acc d.day
    (fun row => { row with cardiovascular_age := some d.cardiovascular_age })) m

/-- VO2-max loop (source lines 428-431). -/
def mergeVo2Max (recs : List VO2MaxRec) (m : List DailyRow) : List DailyRow :=
  recs.foldl (fun acc d => upsertRow acc d.day
    (fun row => { row with vo2_max := some d.vo2_max })) m

/-- Detailed-sleep loop body (source lines 433-451): verbatim fields with
`??` fallbacks to the current row values, hour conversion guarded by
truthiness of `total_sleep_duration`, and stage percentages only when
`total_sleep_duration > 0`. -/
def sleepDetailedUpdate (s : SleepRec) (row : DailyRow) : DailyRow :=
  let base := { row with
    sleep_duration_h := (match s.total_sleep_duration with
      | some t => if t = 0 then row.sleep_duration_h else some (t / 3600)
      | none => row.sleep_duration_h)
    sleep_efficiency := jsCoalesce s.efficiency row.sleep_efficiency
    avg_hr := jsCoalesce s.average_heart_rate row.avg_hr
    avg_hrv := jsCoalesce s.average_hrv row.avg_hrv
    temperature_delta := jsCoalesce s.temperature_delta row.temperature_delta
    respiratory_rate := jsCoalesce s.respiratory_rate row.respiratory_rate
    bedtime_start := jsCoalesce s.bedtime_start row.bedtime_start
    bedtime_end := jsCoalesce s.bedtime_end row.bedtime_end }
  match s.total_sleep_duration with
  | some t =>
      if 0 < t then
        { base with
          deep_pct := some (s.deep_sleep_duration / t * 100)
          rem_pct := some (s.rem_sleep_duration / t * 100)
          light_pct := some (s.light_sleep_duration / t * 100)
          awake_pct := some ((s.awake_time.getD 0) / t * 100) }
      else base
  | none => base

/-- Detailed-sleep loop (source lines 433-451). -/
def mergeSleepDetailed (recs : List SleepRec) (m : List DailyRow) :
    List DailyRow :=
  recs.foldl (fun acc s => upsertRow acc s.day (sleepDetailedUpdate s)) m

/-- Per-workout intensity weight (source line 458). -/
def workoutWeight (w : WorkoutRec) : ℚ :=
  if w.intensity = "hard" then 3 else if w.intensity = "moderate" then 2 else 1

/-- Workout aggregation map (source lines 453-461): insertion-ordered map
from day to `(count, intensityScore)` accumulated across the workouts. -/
def workoutByDay (ws : List WorkoutRec) : List (ℤ × ℚ × ℚ) :=
  ws.foldl (fun acc w =>
    if (acc.find? (fun e => decide (e.1 = w.day))).isSome then
      acc.map (fun e =>
        if e.1 = w.day then (e.1, e.2.1 + 1, e.2.2 + workoutWeight w) else e)
    else acc ++ [(w.day, 1, workoutWeight w)]) []

/-- Workout-aggregate loop (source lines 462-466). -/
def mergeWorkouts (ws : List WorkoutRec) (m : List DailyRow) : List DailyRow :=
  (workoutByDay ws).foldl (fun acc e => upsertRow acc e.1
    (fun row => { row with
      workout_count := some e.2.1
      workout_intensity_score := some e.2.2 })) m

/-- First pass of `buildDashboards` (source lines 378-466): fold every
category into the insertion-ordered day map, in source order. -/
def buildRawRows (input : DashboardsInput) : List DailyRow :=
  mergeWorkouts input.workouts
    (mergeSleepDetailed input.sleepDetailed
      (mergeVo2Max input.vo2Max
        (mergeCardioAge input.cardioAge
          (mergeSpo2 input.spo2
            (mergeResilience input.resilience
              (mergeStress input.stress
                (mergeReadiness input.readiness
                  (mergeActivity input.activity
                    (mergeSleep input.sleep [])))))))))

/-- Second pass over one row (source lines 472-482): clock-minute
conversions, midsleep (mod one day), and deviation from the cross-day median
bedtime. -/
def augmentRow (bedtimeMedian : Option ℚ) (row : DailyRow) : DailyRow :=
  let bcm := clockMinutes row.bedtime_start
  let row1 := { row with
    bedtime_clock_min := bcm
    wake_clock_min := clockMinutes row.bedtime_end }
  let row2 := match bcm, row.sleep_duration_h with
    | some b, some dur =>
        { row1 with midsleep_clock_min := some (jsMod (b + dur * 60 * 0.5) (24 * 60)) }
    | _, _ => row1
  match bedtimeMedian, bcm with
  | some med, some b => { row2 with bedtime_deviation_min := some (b - med) }
  | _, _ => row2

/-- The fixed metric-key list of the full correlation matrix (source lines
497-516). -/
def metricKeys : List MetricKey :=
  [.sleep_score, .readiness_score, .activity_score, .stress_high_min,
   .recovery_high_min, .steps, .avg_hrv, .avg_hr, .sleep_duration_h,
   .sleep_efficiency, .deep_pct, .rem_pct, .bedtime_clock_min,
   .workout_intensity_score, .spo2_avg, .breathing_disturbance_index,
   .vo2_max, .cardiovascular_age]

/-- Output of `buildDashboards` that the claims are about (source
`DashboardsResult`, lines 112-123).  The static dashboard cards and
granularity notes — constant view specs and citation strings packaged around
these computed values — are not modelled. -/
structure DashboardsResult where
  summary_days : ℕ
  social_jetlag_min : Option ℚ
  daily_rows : List DailyRow
  correlation : CorrelationMatrix
  correlation_detrended : CorrelationMatrix
  lag_analyses : List LagAnalysis

/-- Dashboard pipeline (source `buildDashboards`, lines 364-710): build the
raw day rows, sort ascending by day, derive the second-pass fields, compute
social jetlag, both correlation matrices and the four fixed lag analyses. -/
noncomputable def buildDashboards (input : DashboardsInput) : DashboardsResult :=
  let raw := buildRawRows input
  let sortedRows := raw.mergeSort (fun a b => decide (a.day ≤ b.day))
  let bedtimes := sortedRows.filterMap (fun r => clockMinutes r.bedtime_start)
  let bedtimeMedian := median bedtimes
  let dailyRows := sortedRows.map (augmentRow bedtimeMedian)
  let weekendMid := dailyRows.filterMap (fun r =>
    match r.midsleep_clock_min with
    | none => none
    | some m =>
        if dayOfWeek r.day = 0 ∨ dayOfWeek r.day = 6 then some m else none)
  let weekdayMid := dailyRows.filterMap (fun r =>
    match r.midsleep_clock_min with
    | none => none
    | some m =>
        if dayOfWeek r.day = 0 ∨ dayOfWeek r.day = 6 then none else some m)
  let socialJetlag := match median weekendMid, median weekdayMid with
    | some a, some b => some |a - b|
    | _, _ => none
  { summary_days := dailyRows.length
    social_jetlag_min := socialJetlag
    daily_rows := dailyRows
    correlation := correlationMatrix dailyRows metricKeys input.correlationMethod
    correlation_detrended :=
      correlationMatrixDetrended dailyRows metricKeys input.correlationMethod
    lag_analyses := [
      computeLagAnalysis dailyRows .activity_score .readiness_score
        input.maxLagDays input.correlationMethod "lag_activity_readiness"
        "Activity → Readiness (lag)",
      computeLagAnalysis dailyRows .workout_intensity_score .readiness_score
        input.maxLagDays input.correlationMethod "lag_workout_readiness"
        "Training Load → Readiness (lag)",
      computeLagAnalysis dailyRows .stress_high_min .sleep_score
        input.maxLagDays input.correlationMethod "lag_stress_sleep"
        "Stress → Sleep (lag)",
      computeLagAnalysis dailyRows .sleep_duration_h .readiness_score
        input.maxLagDays input.correlationMethod "lag_sleep_readiness"
        "Sleep Duration → Readiness (lag)"] }

/-- JS strings in the series decoder are modelled as their character lists,
so that the decoder's trimming and splitting are structural functions. -/
abbrev JStr := List Char

/-- JS `String.prototype.trim`: strip whitespace from both ends. -/
def strTrim (s : JStr) : JStr :=
  ((s.dropWhile Char.isWhitespace).reverse.dropWhile Char.isWhitespace).reverse

/-- JS `String.prototype.split` on the characters satisfying `p`
(one separator at a time, so consecutive separators yield empty segments,
exactly like splitting on a single-character pattern). -/
def splitChar (p : Char → Bool) (s : JStr) : List JStr :=
  s.foldr (fun c acc =>
    if p c then [] :: acc
    else match acc with
      | [] => [[c]]
      | h :: t => (c :: h) :: t) [[]]

/-- One decoded discrete-series sample (source `DiscreteSeriesPoint`). -/
structure DiscreteSeriesPoint where
  timestamp : ℤ
  code : JStr
  label : JStr
deriving DecidableEq

/-- Decoded discrete series (source `DiscreteSeries`). -/
structure DiscreteSeries where
  raw : JStr
  interval_sec : ℤ
  points : List DiscreteSeriesPoint
deriving DecidableEq

/-- One expanded numeric-series sample (source `NumericSeriesPoint`). -/
structure NumericSeriesPoint where
  timestamp : ℤ
  value : ℚ
deriving DecidableEq

/-- Expanded numeric series (source `NumericSeries`). -/
structure NumericSeries where
  interval_sec : ℤ
  points : List NumericSeriesPoint
deriving DecidableEq

/-- Sleep-stage code table (source `SLEEP_STAGE_LABELS`). -/
def SLEEP_STAGE_LABELS : List (JStr × JStr) :=
  [("1".toList, "deep".toList), ("2".toList, "light".toList),
   ("3".toList, "rem".toList), ("4".toList, "awake".toList)]

/-- Movement code table (source `MOVEMENT_LABELS`). -/
def MOVEMENT_LABELS : List (JStr × JStr) :=
  [("0".toList, "still".toList), ("1".toList, "low".toList),
   ("2".toList, "medium".toList), ("3".toList, "high".toList),
   ("4".toList, "very_high".toList)]

/-- Activity-class code table (source `ACTIVITY_CLASS_LABELS`). -/
def ACTIVITY_CLASS_LABELS : List (JStr × JStr) :=
  [("0".toList, "inactive".toList), ("1".toList, "rest".toList),
   ("2".toList, "low".toList), ("3".toList, "medium".toList),
   ("4".toList, "high".toList), ("5".toList, "non_wear".toList)]

/-- JS object lookup `labels[code]` on a code-to-label table. -/
def lookupLabel (labels : List (JStr × JStr)) (code : JStr) : Option JStr :=
  (labels.find? (fun p => decide (p.1 = code))).map (·.2)

/-- Timestamp stride (source `addSecondsIso`, which adds seconds to an ISO
timestamp via UTC `Date` arithmetic; on epoch seconds this is addition). -/
def addSecondsIso (startISO : ℤ) (seconds : ℤ) : ℤ :=
  startISO + seconds

/-- Tokenizer for compact series strings (source `tokenizeSeries`): trim;
empty gives no tokens; else split on commas when any comma is present, else
on whitespace when any whitespace is present, else one token per character.
Comma and whitespace tokens are trimmed and empty tokens are dropped
(`filter(Boolean)`; the source splits on whitespace RUNS, which equals
splitting on single whitespace characters once empty tokens are dropped). -/
def tokenizeSeries (raw : JStr) : List JStr :=
  let trimmed := strTrim raw
  if trimmed.length = 0 then []
  else if trimmed.contains ',' then
    ((splitChar (fun c => c = ',') trimmed).map strTrim).filter
      (fun s => !(s = []))
  else if trimmed.any Char.isWhitespace then
    ((splitChar Char.isWhitespace trimmed).map strTrim).filter
      (fun s => !(s = []))
  else trimmed.map (fun c => [c])

/-- Discrete-series decoder (source `decodeDiscreteSeries`): null when the
raw string or the start timestamp is absent (JS falsy, which for the raw
string includes the empty string) or when tokenization yields no tokens;
otherwise one point per token with timestamp `start + idx * intervalSec` and
the table label, or `unknown(<code>)` for codes outside the table. -/
def decodeDiscreteSeries (raw : Option JStr) (startISO : Option ℤ)
    (intervalSec : ℤ) (labels : List (JStr × JStr)) :
    Option DiscreteSeries :=
  match raw, startISO with
  | some rawStr, some start =>
      if rawStr = [] then none
      else
        let tokens := tokenizeSeries rawStr
        if tokens.length = 0 then none
        else some
          { raw := rawStr
            interval_sec := intervalSec
            points := tokens.enum.map (fun p =>
              { timestamp := addSecondsIso start ((p.1 : ℤ) * intervalSec)
                code := p.2
                label := (lookupLabel labels p.2).getD
                  ("unknown(".toList ++ p.2 ++ ")".toList) }) }
  | _, _ => none

/-- Numeric-series expander (source `expandNumericSeries`): null when the
items array or start timestamp is absent or the array is empty; otherwise
one point per item with the same timestamp stride. -/
def expandNumericSeries (items : Option (List ℚ)) (startISO : Option ℤ)
    (intervalSec : ℤ) : Option NumericSeries :=
  match items, startISO with
  | some its, some start =>
      if its.length = 0 then none
      else some
        { interval_sec := intervalSec
          points := its.enum.map (fun p =>
            { timestamp := addSecondsIso start ((p.1 : ℤ) * intervalSec)
              value := p.2 }) }
  | _, _ => none

/-- JS `Math.round`: round half toward positive infinity. -/
def jsRound (x : ℚ) : ℤ :=
  ⌊x + 1 / 2⌋

/-- Knowledge-base protocol, identified by its name (the static citation and
step text of the table entries plays no role in the analyzed logic and is
not modelled). -/
structure HealthProtocol where
  name : String
deriving DecidableEq

/-- The protocol table entries (source `HEALTH_PROTOCOLS`,
knowledge/healthScience.ts). -/
def sleep_optimization : HealthProtocol := ⟨"Sleep Optimization Protocol"⟩

/-- Knowledge-base entry `hrv_optimization`. -/
def hrv_optimization : HealthProtocol := ⟨"HRV Optimization Protocol"⟩

/-- Knowledge-base entry `recovery_optimization`. -/
def recovery_optimization : HealthProtocol := ⟨"Athletic Recovery Protocol"⟩

/-- Knowledge-base entry `stress_reduction`. -/
def stress_reduction : HealthProtocol := ⟨"Stress Reduction Protocol"⟩

/-- Knowledge-base entry `metabolic_health`. -/
def metabolic_health : HealthProtocol := ⟨"Metabolic Health Protocol"⟩

/-- The numeric insight fields of `HealthInsights` that the recommendation
logic and protocol selection read (source nesting flattened:
`summary.days_analyzed`, `sleep.avg_score`, `activity.avg_score`,
`activity.avg_steps`, `readiness.avg_score`, `readiness.well_rested_days`,
`stress.stressed_days`, `stress.restored_days`). -/
structure InsightsNumbers where
  days_analyzed : ℕ
  sleep_avg_score : ℤ
  activity_avg_score : ℤ
  activity_avg_steps : ℤ
  readiness_avg_score : ℤ
  readiness_well_rested_days : ℕ
  stress_stressed_days : ℕ
  stress_restored_days : ℕ

/-- Protocol selection (source `getRecommendedProtocols`,
knowledge/healthScience.ts lines 294-322), evaluated at the shape
`analyzeHealthData` passes it.  The `hrv_optimization` branch reads
`insights.readiness.avg_hrv_balance`, a property that does not exist on
`HealthInsights`, so its JS comparison `undefined < 70` is always false and
the branch never fires on this call path.  The `recovery_optimization`
condition divides by `days_analyzed`; when that is zero the JS quotient is
NaN or Infinity and the `< 0.5` comparison is false. -/
def getRecommendedProtocols (insights : InsightsNumbers) :
    List HealthProtocol :=
  (if insights.sleep_avg_score < 75 then [sleep_optimization] else []) ++
  (if insights.days_analyzed ≠ 0 ∧
      ((insights.readiness_well_rested_days : ℚ) / (insights.days_analyzed : ℚ)
        < 1 / 2) then [recovery_optimization] else []) ++
  (if insights.stress_restored_days < insights.stress_stressed_days then
    [stress_reduction] else []) ++
  (if insights.activity_avg_steps < 7000 then [metabolic_health] else [])

/-- One structured recommendation (source `HealthInsights.recommendations`
entry shape). -/
structure Recommendation where
  category : String
  priority : String
  recommendation : String
  rationale : Option String
  protocol : Option HealthProtocol
  action_steps : List String
deriving DecidableEq

/-- Input of `analyzeHealthData` (source `AnalyzeHealthInput`). -/
structure AnalyzeHealthInput where
  sleep : List DailySleepRec
  activity : List DailyActivityRec
  readiness : List DailyReadinessRec
  stress : List DailyStressRec
  workouts : List WorkoutRec

/-- Output of `analyzeHealthData` that the claims are about: the numeric
insight fields feeding the recommendation rules, and the recommendation
list itself (the narrative insight strings, trends, correlations and static
science sections of the source result are not involved in the claims). -/
structure HealthInsights where
  numbers : InsightsNumbers
  recommendations : List Recommendation

/-- Insight summarizer (source `analyzeHealthData`, the portion building the
numeric metrics and the recommendation list).  Each average is the rounded
mean, computed only when its category array is nonempty (otherwise the
initial 0 stands); the stressed/restored day counts filter on
`day_summary`.  The four recommendation rules append, in source order: sleep
(avg sleep score strictly between 0 and 70, HIGH, with the sleep protocol
when selected), steps (avg steps strictly between 0 and 7000, MEDIUM, with
three fixed action steps), readiness (avg readiness strictly between 0 and
75, HIGH, with the recovery protocol when selected), and stress (more
stressed than restored days, HIGH, with the stress protocol when
selected). -/
def analyzeHealthData (data : AnalyzeHealthInput) : HealthInsights :=
  let days := max (max data.sleep.length data.activity.length)
    (max data.readiness.length data.stress.length)
  let sleepAvg : ℤ :=
    if 0 < data.sleep.length then jsRound (average (data.sleep.map (·.score)))
    else 0
  let activityAvg : ℤ :=
    if 0 < data.activity.length then
      jsRound (average (data.activity.map (·.score)))
    else 0
  let avgSteps : ℤ :=
    if 0 < data.activity.length then
      jsRound (average (data.activity.map (·.steps)))
    else 0
  let readinessAvg : ℤ :=
    if 0 < data.readiness.length then
      jsRound (average (data.readiness.map (·.score)))
    else 0
  let wellRested : ℕ :=
    if 0 < data.readiness.length then
      (data.readiness.filter (fun d => decide (80 ≤ d.score))).length
    else 0
  let stressedDays : ℕ :=
    if 0 < data.stress.length then
      (data.stress.filter (fun d => decide (d.day_summary = some "stressed"))).length
    else 0
  let restoredDays : ℕ :=
    if 0 < data.stress.length then
      (data.stress.filter (fun d => decide (d.day_summary = some "restored"))).length
    else 0
  let numbers : InsightsNumbers :=
    { days_analyzed := days
      sleep_avg_score := sleepAvg
      activity_avg_score := activityAvg
      activity_avg_steps := avgSteps
      readiness_avg_score := readinessAvg
      readiness_well_rested_days := wellRested
      stress_stressed_days := stressedDays
      stress_restored_days := restoredDays }
  let protocols := getRecommendedProtocols numbers
  let recommendations : List Recommendation :=
    (if 0 < sleepAvg ∧ sleepAvg < 70 then
      [{ category := "🌙 Sleep Quality Optimization"
         priority := "HIGH"
         recommendation := "Your average sleep score is below optimal. Implement evidence-based sleep hygiene protocol."
         rationale := some "Sleep scores below 70 indicate significant room for improvement. Sleep consistency and timing often matter more than duration alone."
         protocol := protocols.find?
           (fun p => decide (p.name = "Sleep Optimization Protocol"))
         action_steps := [] }]
    else []) ++
    (if 0 < avgSteps ∧ avgSteps < 7000 then
      [{ category := "🏃 Daily Movement"
         priority := "MEDIUM"
         recommendation := "Increase daily step count to reach the minimum threshold associated with meaningful health benefits."
         rationale := some ("Current average (" ++ toString avgSteps ++ " steps) is below 7,000 steps/day.")
         protocol := none
         action_steps := [
           "Add 1,000-2,000 steps daily (gradual increase)",
           "Take a 10-15 minute walk after meals",
           "Break up long sitting periods with short movement breaks"] }]
    else []) ++
    (if 0 < readinessAvg ∧ readinessAvg < 75 then
      [{ category := "💪 Recovery Optimization"
         priority := "HIGH"
         recommendation := "Prioritize recovery to prevent overreaching and improve readiness."
         rationale := some ("Low readiness (avg " ++ toString readinessAvg ++ ") suggests insufficient recovery. Consider reducing intensity on low-readiness days.")
         protocol := protocols.find?
           (fun p => decide (p.name = "Athletic Recovery Protocol"))
         action_steps := [] }]
    else []) ++
    (if restoredDays < stressedDays then
      [{ category := "🧘 Stress Management"
         priority := "HIGH"
         recommendation := "Implement a daily stress reduction protocol to improve recovery and sleep quality."
         rationale := some ("More stressed days (" ++ toString stressedDays ++ ") than restored (" ++ toString restoredDays ++ ") can indicate chronic stress load.")
         protocol := protocols.find?
           (fun p => decide (p.name = "Stress Reduction Protocol"))
         action_steps := [] }]
    else [])
  { numbers := numbers, recommendations := recommendations }

/-- All calendar days appearing in any input category of
`buildDashboards`. -/
def inputDays (input : DashboardsInput) : List ℤ :=
  input.sleep.map (·.day) ++ input.activity.map (·.day) ++
  input.readiness.map (·.day) ++ input.stress.map (·.day) ++
  input.resilience.map (·.day) ++ input.spo2.map (·.day) ++
  input.cardioAge.map (·.day) ++ input.vo2Max.map (·.day) ++
  input.sleepDetailed.map (·.day) ++ input.workouts.map (·.day)

/-- The concrete input of the spec's lag-search property (§8): six
consecutive days with activity scores 1..6 and readiness scores 0..5, so
readiness on day D equals activity on day D-1. -/
def lagTestRows : List DailyRow :=
  [{ day := 0, activity_score := some 1, readiness_score := some 0 },
   { day := 1, activity_score := some 2, readiness_score := some 1 },
   { day := 2, activity_score := some 3, readiness_score := some 2 },
   { day := 3, activity_score := some 4, readiness_score := some 3 },
   { day := 4, activity_score := some 5, readiness_score := some 4 },
   { day := 5, activity_score := some 6, readiness_score := some 5 }]

/-- The numerator accumulated by `pearson`. -/
def pearsonNum (xs ys : List ℚ) : ℚ :=
  ((xs.zip ys).map (fun p => (p.1 - average xs) * (p.2 - average ys))).sum

/-- The per-sequence sum of squared deviations accumulated by `pearson`
(`denX` for the first argument, `denY` for the second). -/
def pearsonDen (xs : List ℚ) : ℚ :=
  (xs.map (fun x => (x - average xs) * (x - average xs))).sum

/-- Per-row absence invariant of the first-pass day map: every category's
fields are absent unless the row's day occurs in that category's input, and
the second-pass derived fields are absent outright. -/
def rowAbsence (input : DashboardsInput) (r : DailyRow) : Prop :=
  (r.day ∉ input.sleep.map (·.day) → r.sleep_score = none) ∧
  (r.day ∉ input.activity.map (·.day) → r.activity_score = none ∧
    r.steps = none ∧ r.total_calories = none ∧ r.active_calories = none) ∧
  (r.day ∉ input.readiness.map (·.day) → r.readiness_score = none) ∧
  (r.day ∉ input.stress.map (·.day) → r.stress_high_min = none ∧
    r.recovery_high_min = none) ∧
  (r.day ∉ input.resilience.map (·.day) → r.resilience_level = none) ∧
  (r.day ∉ input.spo2.map (·.day) → r.spo2_avg = none ∧
    r.breathing_disturbance_index = none) ∧
  (r.day ∉ input.cardioAge.map (·.day) → r.cardiovascular_age = none) ∧
  (r.day ∉ input.vo2Max.map (·.day) → r.vo2_max = none) ∧
  (r.day ∉ input.workouts.map (·.day) → r.workout_count = none ∧
    r.workout_intensity_score = none) ∧
  (r.day ∉ input.sleepDetailed.map (·.day) → r.sleep_duration_h = none ∧
    r.sleep_efficiency = none ∧ r.avg_hr = none ∧ r.avg_hrv = none ∧
    r.temperature_delta = none ∧ r.respiratory_rate = none ∧
    r.deep_pct = none ∧ r.rem_pct = none ∧ r.light_pct = none ∧
    r.awake_pct = none ∧ r.bedtime_start = none ∧ r.bedtime_end = none) ∧
  r.bedtime_clock_min = none ∧ r.wake_clock_min = none ∧
  r.midsleep_clock_min = none ∧ r.bedtime_deviation_min = none

/-!
Theorems.  Helper lemmas shared between claims come first; each claim's
theorem carries the claim id in its doc comment.
-/

/-- An invariant survives one loop iteration when the loop body preserves it
on rows of the iteration's day and establishes it on the fresh row. -/
theorem upsertRow_inv {P : DailyRow → Prop} (m : List DailyRow) (day : ℤ)
    (f : DailyRow → DailyRow) (hm : ∀ r ∈ m, P r)
    (hf : ∀ r, r.day = day → P r → P (f r))
    (hfresh : P (f { day := day })) :
    ∀ r ∈ upsertRow m day f, P r := by
  intro r hr
  rw [upsertRow] at hr
  by_cases hfound : (m.find? (fun r => decide (r.day = day))).isSome
  · rw [if_pos hfound] at hr
    rw [List.mem_map] at hr
    obtain ⟨r0, hr0, rfl⟩ := hr
    by_cases hd : r0.day = day
    · rw [if_pos hd]
      exact hf r0 hd (hm r0 hr0)
    · rw [if_neg hd]
      exact hm r0 hr0
  · rw [if_neg hfound] at hr
    rw [List.mem_append] at hr
    rcases hr with hr | hr
    · exact hm r hr
    · rw [List.mem_singleton] at hr
      subst hr
      exact hfresh

/-- An invariant survives a whole category loop. -/
theorem foldUpsert_inv {α : Type} {P : DailyRow → Prop} (dayOf : α → ℤ)
    (upd : α → DailyRow → DailyRow) (S : List α)
    (hf : ∀ a ∈ S, ∀ r, r.day = dayOf a → P r → P (upd a r))
    (hfresh : ∀ a ∈ S, P (upd a { day := dayOf a })) :
    ∀ recs : List α, (∀ a ∈ recs, a ∈ S) → ∀ m : List DailyRow,
      (∀ r ∈ m, P r) →
      ∀ r ∈ recs.foldl (fun acc a => upsertRow acc (dayOf a) (upd a)) m, P r := by
  intro recs
  induction recs with
  | nil =>
    intro _ m hm r hr
    exact hm r hr
  | cons a t ih =>
    intro hsub m hm r hr
    rw [List.foldl_cons] at hr
    refine ih (fun b hb => hsub b (List.mem_cons_of_mem _ hb)) _ ?_ r hr
    exact upsertRow_inv m (dayOf a) (upd a) hm
      (hf a (hsub a (List.mem_cons_self a t)))
      (hfresh a (hsub a (List.mem_cons_self a t)))

/-- One loop iteration either leaves the day list unchanged or appends the
new day. -/
theorem upsertRow_days (m : List DailyRow) (day : ℤ) (f : DailyRow → DailyRow)
    (hday : ∀ r, (f r).day = r.day) :
    (upsertRow m day f).map (·.day) =
      if day ∈ m.map (·.day) then m.map (·.day) else m.map (·.day) ++ [day] := by
  have hiff : (m.find? (fun r => decide (r.day = day))).isSome ↔
      day ∈ m.map (·.day) := by
    rw [List.find?_isSome]
    constructor
    · rintro ⟨r, hr, hp⟩
      rw [decide_eq_true_eq] at hp
      exact hp ▸ List.mem_map_of_mem (·.day) hr
    · intro hmem
      rw [List.mem_map] at hmem
      obtain ⟨r, hr, hrd⟩ := hmem
      exact ⟨r, hr, by simpa using hrd⟩
  rw [upsertRow]
  by_cases hfound : day ∈ m.map (·.day)
  · rw [if_pos (hiff.mpr hfound), if_pos hfound, List.map_map]
    refine List.map_congr_left ?_
    intro r _
    by_cases hd : r.day = day
    · simp [hd, hday]
    · simp [hd]
  · rw [if_neg (fun h => hfound (hiff.mp h)), if_neg hfound, List.map_append]
    simp [hday]

/-- Day membership across a whole category loop. -/
theorem foldUpsert_days {α : Type} (dayOf : α → ℤ)
    (upd : α → DailyRow → DailyRow)
    (hday : ∀ a r, (upd a r).day = r.day) :
    ∀ (recs : List α) (m : List DailyRow) (d : ℤ),
      (d ∈ (recs.foldl (fun acc a => upsertRow acc (dayOf a) (upd a)) m).map
          (·.day) ↔ d ∈ m.map (·.day) ∨ d ∈ recs.map dayOf) := by
  intro recs
  induction recs with
  | nil => simp
  | cons a t ih =>
    intro m d
    rw [List.foldl_cons, ih, upsertRow_days m (dayOf a) (upd a) (hday a)]
    by_cases hfound : dayOf a ∈ m.map (·.day)
    · rw [if_pos hfound]
      constructor
      · rintro (h | h)
        · exact Or.inl h
        · exact Or.inr (List.mem_cons_of_mem _ h)
      · rintro (h | h)
        · exact Or.inl h
        · rw [List.map_cons, List.mem_cons] at h
          rcases h with rfl | h
          · exact Or.inl hfound
          · exact Or.inr h
    · rw [if_neg hfound]
      rw [List.mem_append, List.mem_singleton]
      constructor
      · rintro ((h | rfl) | h)
        · exact Or.inl h
        · exact Or.inr (List.mem_cons_self _ _)
        · exact Or.inr (List.mem_cons_of_mem _ h)
      · rintro (h | h)
        · exact Or.inl (Or.inl h)
        · rw [List.map_cons, List.mem_cons] at h
          rcases h with rfl | h
          · exact Or.inl (Or.inr rfl)
          · exact Or.inr h

/-- Day uniqueness across a whole category loop. -/
theorem foldUpsert_nodup {α : Type} (dayOf : α → ℤ)
    (upd : α → DailyRow → DailyRow)
    (hday : ∀ a r, (upd a r).day = r.day) :
    ∀ (recs : List α) (m : List DailyRow), (m.map (·.day)).Nodup →
      ((recs.foldl (fun acc a => upsertRow acc (dayOf a) (upd a)) m).map
        (·.day)).Nodup := by
  intro recs
  induction recs with
  | nil =>
    intro m hm
    exact hm
  | cons a t ih =>
    intro m hm
    rw [List.foldl_cons]
    refine ih _ ?_
    rw [upsertRow_days m (dayOf a) (upd a) (hday a)]
    by_cases hfound : dayOf a ∈ m.map (·.day)
    · rw [if_pos hfound]
      exact hm
    · rw [if_neg hfound]
      refine List.Nodup.append hm (List.nodup_singleton _) ?_
      intro x hx hx2
      rw [List.mem_singleton] at hx2
      exact hfound (hx2 ▸ hx)

/-- Unfolding of `pearson` through the named numerator and denominators. -/
theorem pearson_eq (xs ys : List ℚ) :
    pearson xs ys =
      if xs.length = ys.length ∧ 5 ≤ xs.length then
        if Real.sqrt ((pearsonDen xs * pearsonDen ys : ℚ) : ℝ) = 0 then none
        else some (((pearsonNum xs ys : ℚ) : ℝ) /
          Real.sqrt ((pearsonDen xs * pearsonDen ys : ℚ) : ℝ))
      else none := by
  rw [pearson]
  rfl

/-- Sums of squared deviations are nonnegative. -/
theorem pearsonDen_nonneg (xs : List ℚ) : 0 ≤ pearsonDen xs := by
  refine List.sum_nonneg ?_
  intro x hx
  rw [List.mem_map] at hx
  obtain ⟨a, -, rfl⟩ := hx
  exact mul_self_nonneg _

/-- Short sequences correlate to null under every method. -/
theorem correlate_short (method : CorrelationMethod) (xs ys : List ℚ)
    (h : xs.length < 5) : correlate method xs ys = none := by
  cases method with
  | spearman =>
    rw [correlate, spearman, if_neg]
    intro hc
    omega
  | pearson =>
    rw [correlate, pearson, if_neg]
    intro hc
    omega

/-- C4: the Pearson correlation is null whenever there are fewer than 5
paired points or the denominator is zero (zero variance in either
sequence); the Spearman correlation is transitively null under the same
length bound; every non-null Pearson value is the guarded quotient
`num / sqrt(denX * denY)` with both variances nonzero, so in the exact
arithmetic of this model no division by zero (the JS source of NaN or
infinity here) ever happens; and every correlation-matrix cell with fewer
than 5 pairwise-complete observations is null. -/
theorem correlation_guards :
    (∀ xs ys : List ℚ, xs.length < 5 →
      pearson xs ys = none ∧ spearman xs ys = none) ∧
    (∀ xs ys : List ℚ, pearsonDen xs = 0 ∨ pearsonDen ys = 0 →
      pearson xs ys = none) ∧
    (∀ xs ys : List ℚ, ∀ r : ℝ, pearson xs ys = some r →
      pearsonDen xs ≠ 0 ∧ pearsonDen ys ≠ 0 ∧
      r = ((pearsonNum xs ys : ℚ) : ℝ) /
        Real.sqrt ((pearsonDen xs * pearsonDen ys : ℚ) : ℝ)) ∧
    (∀ xs ys : List ℚ, ∀ r : ℝ, spearman xs ys = some r →
      pearsonDen (rank xs) ≠ 0 ∧ pearsonDen (rank ys) ≠ 0) ∧
    (∀ rows keys method i j,
      (((correlationMatrix rows keys method).counts.getD i []).getD j 0) < 5 →
      (((correlationMatrix rows keys method).matrix.getD i []).getD j none)
        = none) := by
  have hsome : ∀ xs ys : List ℚ, ∀ r : ℝ, pearson xs ys = some r →
      pearsonDen xs ≠ 0 ∧ pearsonDen ys ≠ 0 ∧
      r = ((pearsonNum xs ys : ℚ) : ℝ) /
        Real.sqrt ((pearsonDen xs * pearsonDen ys : ℚ) : ℝ) := by
    intro xs ys r h
    rw [pearson_eq] at h
    by_cases hc : xs.length = ys.length ∧ 5 ≤ xs.length
    · rw [if_pos hc] at h
      by_cases hden : Real.sqrt ((pearsonDen xs * pearsonDen ys : ℚ) : ℝ) = 0
      · rw [if_pos hden] at h
        exact absurd h (by simp)
      · rw [if_neg hden] at h
        have hpos : (0 : ℝ) < ((pearsonDen xs * pearsonDen ys : ℚ) : ℝ) := by
          rcases lt_or_le 0 (((pearsonDen xs * pearsonDen ys : ℚ) : ℝ)) with hp | hp
          · exact hp
          · exact absurd (Real.sqrt_eq_zero'.mpr hp) hden
        have hprod : pearsonDen xs * pearsonDen ys ≠ 0 := by
          intro h0
          rw [h0] at hpos
          simp at hpos
        refine ⟨fun h0 => hprod (by rw [h0]; ring), fun h0 => hprod (by rw [h0]; ring), ?_⟩
        simpa using h.symm
    · rw [if_neg hc] at h
      exact absurd h (by simp)
  refine ⟨?_, ?_, hsome, ?_, ?_⟩
  · intro xs ys h
    constructor
    · rw [pearson, if_neg]
      intro hc
      omega
    · rw [spearman, if_neg]
      intro hc
      omega
  · intro xs ys h
    rw [pearson_eq]
    by_cases hc : xs.length = ys.length ∧ 5 ≤ xs.length
    · rw [if_pos hc, if_pos]
      have : pearsonDen xs * pearsonDen ys = 0 := by
        rcases h with h | h <;> rw [h] <;> ring
      rw [this]
      simp
    · rw [if_neg hc]
  · intro xs ys r h
    rw [spearman] at h
    by_cases hc : xs.length = ys.length ∧ 5 ≤ xs.length
    · rw [if_pos hc] at h
      have := hsome _ _ _ h
      exact ⟨this.1, this.2.1⟩
    · rw [if_neg hc] at h
      exact absurd h (by simp)
  · intro rows keys method i j h
    simp only [correlationMatrix, List.getD_eq_getElem?_getD,
      List.getElem?_map] at h ⊢
    cases hki : keys[i]? with
    | none => simp [hki]
    | some ki =>
      cases hkj : keys[j]? with
      | none => simp [hki, hkj]
      | some kj =>
        simp [hki, hkj, Function.comp] at h ⊢
        refine correlate_short _ _ _ ?_
        simpa [pairwise] using h

/-- Witness for C4: a short pair, a zero-variance pair, a non-null value,
and an under-populated matrix cell. -/
theorem correlation_guards_witness :
    (pearson [1, 2] [1, 2] = none ∧ spearman [1, 2] [1, 2] = none) ∧
    pearson [3, 3, 3, 3, 3] [1, 2, 3, 4, 5] = none ∧
    (((correlationMatrix [] [MetricKey.sleep_score]
        CorrelationMethod.pearson).matrix.getD 0 []).getD 0 none) = none := by
  refine ⟨correlation_guards.1 [1, 2] [1, 2] (by norm_num), ?_, ?_⟩
  · refine correlation_guards.2.1 [3, 3, 3, 3, 3] [1, 2, 3, 4, 5] (Or.inl ?_)
    norm_num [pearsonDen, average]
  · refine correlation_guards.2.2.2.2 [] [MetricKey.sleep_score]
      CorrelationMethod.pearson 0 0 ?_
    norm_num [correlationMatrix, pairwise, pairwisePairs]

/-- The qualifying pairs of `pairwise` swap when its arguments swap. -/
theorem pairwisePairs_swap (xs ys : List (Option ℚ)) :
    pairwisePairs ys xs = (pairwisePairs xs ys).map Prod.swap := by
  rw [pairwisePairs, pairwisePairs, ← List.zip_swap xs ys, List.filterMap_map,
    List.map_filterMap]
  congr 1
  funext p
  obtain ⟨a, b⟩ := p
  cases a <;> cases b <;> rfl

/-- Pearson correlation is symmetric in its two sequences. -/
theorem pearson_comm (xs ys : List ℚ) : pearson xs ys = pearson ys xs := by
  rw [pearson_eq, pearson_eq]
  by_cases hlen : xs.length = ys.length
  · have hc : (xs.length = ys.length ∧ 5 ≤ xs.length) ↔
        (ys.length = xs.length ∧ 5 ≤ ys.length) := by
      constructor <;> intro h <;> exact ⟨h.1.symm, by omega⟩
    by_cases h5 : 5 ≤ xs.length
    · rw [if_pos ⟨hlen, h5⟩, if_pos (hc.mp ⟨hlen, h5⟩)]
      have hnum : pearsonNum ys xs = pearsonNum xs ys := by
        rw [pearsonNum, pearsonNum, ← List.zip_swap xs ys, List.map_map]
        have hfun : ((fun p : ℚ × ℚ => (p.1 - average ys) * (p.2 - average xs))
            ∘ Prod.swap) =
            (fun p : ℚ × ℚ => (p.1 - average xs) * (p.2 - average ys)) := by
          funext p
          simp only [Function.comp, Prod.fst_swap, Prod.snd_swap]
          ring
        rw [hfun]
      have hden : pearsonDen ys * pearsonDen xs = pearsonDen xs * pearsonDen ys :=
        mul_comm _ _
      rw [hnum, hden]
    · rw [if_neg (by intro h; exact h5 h.2),
        if_neg (by intro h; exact h5 (by omega))]
  · rw [if_neg (by intro h; exact hlen h.1),
      if_neg (by intro h; exact hlen h.1.symm)]

/-- Spearman correlation is symmetric in its two sequences. -/
theorem spearman_comm (xs ys : List ℚ) : spearman xs ys = spearman ys xs := by
  rw [spearman, spearman]
  by_cases hlen : xs.length = ys.length
  · by_cases h5 : 5 ≤ xs.length
    · rw [if_pos ⟨hlen, h5⟩, if_pos ⟨hlen.symm, by omega⟩, pearson_comm]
    · rw [if_neg (by intro h; exact h5 h.2),
        if_neg (by intro h; exact h5 (by omega))]
  · rw [if_neg (by intro h; exact hlen h.1),
      if_neg (by intro h; exact hlen h.1.symm)]

/-- Correlation under either method is symmetric. -/
theorem correlate_comm (method : CorrelationMethod) (xs ys : List ℚ) :
    correlate method xs ys = correlate method ys xs := by
  cases method with
  | spearman => exact spearman_comm xs ys
  | pearson => exact pearson_comm xs ys

/-- One cell of the correlation matrix is symmetric in its two series. -/
theorem cell_comm (method : CorrelationMethod) (a b : List (Option ℚ)) :
    correlate method (pairwise a b).1 (pairwise a b).2 =
      correlate method (pairwise b a).1 (pairwise b a).2 := by
  rw [pairwise, pairwise, pairwisePairs_swap a b]
  simp only [List.map_map]
  have h1 : (Prod.fst ∘ Prod.swap : ℚ × ℚ → ℚ) = Prod.snd := rfl
  have h2 : (Prod.snd ∘ Prod.swap : ℚ × ℚ → ℚ) = Prod.fst := rfl
  rw [h1, h2, correlate_comm]

/-- C5: for every row set, metric-key list and correlation method, the full
correlation matrix is symmetric: entry (i, j) equals entry (j, i) for all
indices (out-of-range lookups read the shared `none` default on both
sides). -/
theorem correlationMatrix_symm (rows : List DailyRow) (keys : List MetricKey)
    (method : CorrelationMethod) (i j : ℕ) :
    (((correlationMatrix rows keys method).matrix.getD i []).getD j none) =
      (((correlationMatrix rows keys method).matrix.getD j []).getD i none) := by
  simp only [correlationMatrix, List.getD_eq_getElem?_getD, List.getElem?_map]
  cases hki : keys[i]? with
  | none =>
    cases hkj : keys[j]? with
    | none => simp [hki, hkj]
    | some kj => simp [hki, hkj]
  | some ki =>
    cases hkj : keys[j]? with
    | none => simp [hki, hkj]
    | some kj =>
      simp [hki, hkj, Function.comp]
      exact cell_comm method _ _

/-- Tokenizing the empty string yields no tokens. -/
theorem tokenizeSeries_nil : tokenizeSeries [] = [] := rfl

/-- The element list of a decoded discrete series, positionally. -/
theorem decode_points_eq (rawStr : JStr) (start intervalSec : ℤ)
    (labels : List (JStr × JStr)) :
    ((tokenizeSeries rawStr).enum.map (fun p =>
      ({ timestamp := addSecondsIso start ((p.1 : ℤ) * intervalSec)
         code := p.2
         label := (lookupLabel labels p.2).getD
           ("unknown(".toList ++ p.2 ++ ")".toList) } : DiscreteSeriesPoint))) =
    (List.range (tokenizeSeries rawStr).length).map (fun (i : ℕ) =>
      { timestamp := start + (i : ℤ) * intervalSec
        code := (tokenizeSeries rawStr).getD i []
        label := (lookupLabel labels ((tokenizeSeries rawStr).getD i [])).getD
          ("unknown(".toList ++ (tokenizeSeries rawStr).getD i [] ++ ")".toList) }) := by
  apply List.ext_getElem
  · simp
  · intro i h1 h2
    simp only [List.getElem_map, List.getElem_enum, List.getElem_range]
    have hi : i < (tokenizeSeries rawStr).length := by simpa using h1
    rw [List.getD_eq_getElem _ _ hi]
    rfl

/-- C9: with the raw string and start timestamp present (and, per C10, a
nonempty token list), the decoder produces exactly one point per token of
the tokenized raw input; point `i` carries timestamp
`start + i * intervalSec`, the token as its code, and the table's label for
that code or `unknown(<code>)` when the code is not in the table.  When the
raw string or the start timestamp is absent the decoder returns null. -/
theorem decodeDiscreteSeries_contract (rawStr : JStr) (start intervalSec : ℤ)
    (labels : List (JStr × JStr)) (htok : tokenizeSeries rawStr ≠ []) :
    (∀ s i l, decodeDiscreteSeries none s i l = none) ∧
    (∀ r i l, decodeDiscreteSeries r none i l = none) ∧
    decodeDiscreteSeries (some rawStr) (some start) intervalSec labels =
      some
        { raw := rawStr
          interval_sec := intervalSec
          points := (List.range (tokenizeSeries rawStr).length).map
            (fun (i : ℕ) =>
            { timestamp := start + (i : ℤ) * intervalSec
              code := (tokenizeSeries rawStr).getD i []
              label :=
                (lookupLabel labels ((tokenizeSeries rawStr).getD i [])).getD
                  ("unknown(".toList ++ (tokenizeSeries rawStr).getD i []
                    ++ ")".toList) }) } := by
  refine ⟨fun s i l => rfl, fun r i l => by cases r <;> rfl, ?_⟩
  have hraw : rawStr ≠ [] := by
    intro h
    exact htok (h ▸ tokenizeSeries_nil)
  rw [decodeDiscreteSeries, if_neg hraw]
  have hlen : ¬((tokenizeSeries rawStr).length = 0) := by
    simpa [List.length_eq_zero] using htok
  rw [if_neg hlen, decode_points_eq]

/-- Witness for C9 at the spec's own example: raw `"123"`, start 0,
interval 300 seconds, sleep-stage labels. -/
theorem decodeDiscreteSeries_contract_witness :
    decodeDiscreteSeries (some "123".toList) (some 0) 300 SLEEP_STAGE_LABELS =
      some
        { raw := "123".toList
          interval_sec := 300
          points := [
            { timestamp := 0, code := "1".toList, label := "deep".toList },
            { timestamp := 300, code := "2".toList, label := "light".toList },
            { timestamp := 600, code := "3".toList, label := "rem".toList }] } := by
  have h := (decodeDiscreteSeries_contract "123".toList 0 300
    SLEEP_STAGE_LABELS (by decide)).2.2
  exact h.trans (by decide)

/-- C10: the decoders never return an empty series.  The discrete decoder
returns null exactly when the raw string is absent, the start timestamp is
absent, or the raw string tokenizes to zero tokens; the numeric expander
returns null for an absent start, an absent items array or an empty one; and
every non-null result of either has at least one point. -/
theorem decoders_never_empty :
    (∀ raw startISO intervalSec labels,
      decodeDiscreteSeries raw startISO intervalSec labels = none ↔
        raw = none ∨ startISO = none ∨ tokenizeSeries (raw.getD []) = []) ∧
    (∀ raw startISO intervalSec labels series,
      decodeDiscreteSeries raw startISO intervalSec labels = some series →
        1 ≤ series.points.length) ∧
    (∀ startISO intervalSec,
      expandNumericSeries (some []) startISO intervalSec = none) ∧
    (∀ items startISO intervalSec series,
      expandNumericSeries items startISO intervalSec = some series →
        1 ≤ series.points.length) := by
  refine ⟨?_, ?_, ?_, ?_⟩
  · intro raw startISO intervalSec labels
    cases raw with
    | none => simp [decodeDiscreteSeries]
    | some rawStr =>
      cases startISO with
      | none => simp [decodeDiscreteSeries]
      | some start =>
        simp only [decodeDiscreteSeries, Option.getD_some]
        by_cases hraw : rawStr = []
        · subst hraw
          simp [tokenizeSeries_nil]
        · rw [if_neg hraw]
          by_cases hlen : (tokenizeSeries rawStr).length = 0
          · simp [hlen, List.length_eq_zero.mp hlen]
          · have : tokenizeSeries rawStr ≠ [] := by
              simpa [List.length_eq_zero] using hlen
            simp [hlen, this]
  · intro raw startISO intervalSec labels series h
    cases raw with
    | none => simp [decodeDiscreteSeries] at h
    | some rawStr =>
      cases startISO with
      | none => simp [decodeDiscreteSeries] at h
      | some start =>
        rw [decodeDiscreteSeries] at h
        by_cases hraw : rawStr = []
        · rw [if_pos hraw] at h
          exact absurd h (by simp)
        · rw [if_neg hraw] at h
          by_cases hlen : (tokenizeSeries rawStr).length = 0
          · rw [if_pos hlen] at h
            exact absurd h (by simp)
          · rw [if_neg hlen] at h
            have := congrArg (fun o => (o.map (fun s => s.points.length)).getD 0) h
            simp at this
            omega
  · intro startISO intervalSec
    cases startISO <;> rfl
  · intro items startISO intervalSec series h
    cases items with
    | none => simp [expandNumericSeries] at h
    | some its =>
      cases startISO with
      | none => simp [expandNumericSeries] at h
      | some start =>
        rw [expandNumericSeries] at h
        by_cases hlen : its.length = 0
        · rw [if_pos hlen] at h
          exact absurd h (by simp)
        · rw [if_neg hlen] at h
          have := congrArg (fun o => (o.map (fun s => s.points.length)).getD 0) h
          simp at this
          omega

/-- Witness for C10: whitespace-only raw input decodes to null, the empty
numeric array expands to null, and a nonempty decode has a point. -/
theorem decoders_never_empty_witness :
    decodeDiscreteSeries (some " ".toList) (some 0) 300 SLEEP_STAGE_LABELS
      = none ∧
    expandNumericSeries (some []) (some 0) 60 = none := by
  constructor
  · exact (decoders_never_empty.1 (some " ".toList) (some 0) 300
      SLEEP_STAGE_LABELS).mpr (Or.inr (Or.inr (by decide)))
  · exact decoders_never_empty.2.2.1 (some 0) 60

/-- The trailing-window slice of `detrend`, rewritten as the present values
among positions `start .. e-1` of the list. -/
theorem range'_filterMap_getD (values : List (Option ℚ)) (start e : ℕ)
    (hse : start ≤ e) (he : e ≤ values.length) :
    (List.range' start (e - start)).filterMap (fun j => values.getD j none) =
      ((values.take e).drop start).filterMap id := by
  have hlist : (values.take e).drop start =
      (List.range' start (e - start)).map (fun j => values.getD j none) := by
    apply List.ext_getElem
    · simp [List.length_drop, List.length_take]
      omega
    · intro k h1 h2
      have hk : start + k < e := by
        simp [List.length_drop, List.length_take] at h1
        omega
      rw [List.getElem_drop, List.getElem_take, List.getElem_map,
        List.getElem_range']
      rw [List.getD_eq_getElem _ _ (by omega)]
      simp only [one_mul]
  rw [hlist, List.filterMap_map]
  rfl

/-- Evaluation of `detrend` at a present position. -/
theorem detrend_getD_present (values : List (Option ℚ)) (i : ℕ) (v : ℚ)
    (hi : i < values.length) (hv : values.getD i none = some v) :
    (detrend values 7).getD i none =
      some (v - average (((values.take (i + 1)).drop (i + 1 - 7)).filterMap id)) := by
  have hmap : (detrend values 7).getD i none =
      (match values.getD i none with
        | none => none
        | some v =>
            let start := i + 1 - 7
            let slice := ((List.range' start (i + 1 - start)).filterMap
              (fun j => values.getD j none))
            if slice.length = 0 then none else some (v - average slice)) := by
    rw [detrend]
    rw [List.getD_eq_getElem _ _ (by simpa using hi), List.getElem_map,
      List.getElem_range]
  rw [hmap, hv]
  simp only
  have hslice := range'_filterMap_getD values (i + 1 - 7) (i + 1)
    (by omega) (by omega)
  have hsub : i + 1 - (i + 1 - 7) = i + 1 - (i + 1 - 7) := rfl
  rw [hslice]
  have hmem : v ∈ ((values.take (i + 1)).drop (i + 1 - 7)).filterMap id := by
    rw [← hslice]
    refine List.mem_filterMap.mpr ⟨i, ?_, hv⟩
    refine List.mem_range'.mpr ⟨i - (i + 1 - 7), by omega, by omega⟩
  have hne : ¬(((values.take (i + 1)).drop (i + 1 - 7)).filterMap id).length = 0 := by
    intro h
    rw [List.length_eq_zero] at h
    rw [h] at hmem
    simp at hmem
  rw [if_neg hne]

/-- Counterexample to C3 as stated: a single present value with no prior
window data is NOT passed through unmodified; the window includes the
current day, so the value becomes `v - v = 0`. -/
theorem detrend_counterexample :
    detrend [some 1] 7 = [some 0] ∧ detrend [some 1] 7 ≠ [some 1] := by
  have h : detrend [some 1] 7 = [some 0] := by
    have := detrend_getD_present [some 1] 0 1 (by simp) (by simp)
    have hlen : (detrend [some 1] 7).length = 1 := by simp [detrend]
    have havg : average ((([some (1:ℚ)].take 1).drop 0).filterMap id) = 1 := by
      simp [average]
    rw [havg] at this
    simp only [List.getD] at this
    cases hd : detrend [some 1] 7 with
    | nil => rw [hd] at hlen; simp at hlen
    | cons a t =>
      rw [hd] at hlen this
      simp at hlen this
      rw [hlen, this]
  exact ⟨h, by simp [h]⟩

/-- C3 as amended: with the default 7-day window, an absent value stays
absent; a present value maps to the value minus the mean of the present
values in the trailing window (current day inclusive, never looking ahead);
in particular a present value with no prior present data in its window maps
to 0 (the value minus itself), not to the unmodified value. -/
theorem detrend_spec (values : List (Option ℚ)) :
    (detrend values 7).length = values.length ∧
    (∀ i, i < values.length → values.getD i none = none →
      (detrend values 7).getD i none = none) ∧
    (∀ i v, i < values.length → values.getD i none = some v →
      (detrend values 7).getD i none =
        some (v - average (((values.take (i + 1)).drop (i + 1 - 7)).filterMap id))) ∧
    (∀ i v, i < values.length → values.getD i none = some v →
      (∀ j, i + 1 - 7 ≤ j → j < i → values.getD j none = none) →
      (detrend values 7).getD i none = some 0) := by
  refine ⟨by simp [detrend], ?_, ?_, ?_⟩
  · intro i hi hnone
    rw [detrend]
    rw [List.getD_eq_getElem _ _ (by simpa using hi), List.getElem_map,
      List.getElem_range, hnone]
  · intro i v hi hv
    exact detrend_getD_present values i v hi hv
  · intro i v hi hv hprior
    rw [detrend_getD_present values i v hi hv]
    have hslice := (range'_filterMap_getD values (i + 1 - 7) (i + 1)
      (by omega) (by omega)).symm
    rw [hslice]
    have hrange : List.range' (i + 1 - 7) (i + 1 - (i + 1 - 7)) =
        List.range' (i + 1 - 7) (i - (i + 1 - 7)) ++ [i] := by
      have h1 : i + 1 - (i + 1 - 7) = (i - (i + 1 - 7)) + 1 := by omega
      rw [h1, List.range'_1_concat]
      congr 2
      omega
    rw [hrange, List.filterMap_append]
    have hnil : (List.range' (i + 1 - 7) (i - (i + 1 - 7))).filterMap
        (fun j => values.getD j none) = [] := by
      rw [List.filterMap_eq_nil_iff]
      intro j hj
      rw [List.mem_range'] at hj
      obtain ⟨k, hk, rfl⟩ := hj
      have hlt : (i + 1 - 7) + 1 * k < i := by omega
      have hge : i + 1 - 7 ≤ (i + 1 - 7) + 1 * k := by omega
      have hj2 := hprior ((i + 1 - 7) + 1 * k) hge hlt
      simpa using hj2
    rw [hnil]
    have hv2 : values[i]?.getD none = some v := by simpa [List.getD] using hv
    simp [average, hv2]


/-- Witness for the amended C3: value 4 with an absent predecessor detrends
to 0, and an absent slot stays absent. -/
theorem detrend_spec_witness :
    (detrend [none, some 4] 7).getD 1 none = some 0 ∧
    (detrend [none, some 4] 7).getD 0 none = none := by
  constructor
  · exact (detrend_spec [none, some 4]).2.2.2 1 4 (by simp) (by simp)
      (fun j h1 h2 => by interval_cases j; simp)
  · exact (detrend_spec [none, some 4]).2.1 0 (by simp) (by simp)

/-- A list of nonnegative rationals summing to zero is all zero. -/
theorem sum_nonneg_all_zero (l : List ℚ) (h0 : ∀ x ∈ l, 0 ≤ x)
    (hsum : l.sum = 0) : ∀ x ∈ l, x = 0 := by
  induction l with
  | nil => simp
  | cons a t ih =>
    rw [List.sum_cons] at hsum
    have hat : 0 ≤ a := h0 a (List.mem_cons_self a t)
    have hts : 0 ≤ t.sum :=
      List.sum_nonneg (fun x hx => h0 x (List.mem_cons_of_mem _ hx))
    have ha : a = 0 := by linarith
    have ht : t.sum = 0 := by linarith
    intro x hx
    rcases List.mem_cons.mp hx with rfl | hx2
    · exact ha
    · exact ih (fun y hy => h0 y (List.mem_cons_of_mem _ hy)) ht x hx2

/-- Zero variance forces every element to equal the mean. -/
theorem pearsonDen_zero_eq (z : List ℚ) (h0 : pearsonDen z = 0) :
    ∀ x ∈ z, x = average z := by
  intro x hx
  have hmem : (x - average z) * (x - average z) ∈
      z.map (fun x => (x - average z) * (x - average z)) :=
    List.mem_map_of_mem _ hx
  have := sum_nonneg_all_zero _ (fun y hy => by
    rw [List.mem_map] at hy
    obtain ⟨a, -, rfl⟩ := hy
    exact mul_self_nonneg _) h0 _ hmem
  have hx0 : x - average z = 0 := mul_self_eq_zero.mp this
  linarith

/-- Zipping a list with itself pairs every element with itself. -/
theorem zip_self (z : List ℚ) : z.zip z = z.map (fun a => (a, a)) := by
  induction z with
  | nil => rfl
  | cons a t ih => simp [List.zip_cons_cons, ih]

/-- Pearson correlation of any sufficiently long non-constant sequence with
itself is exactly 1. -/
theorem pearson_self (z : List ℚ) (h5 : 5 ≤ z.length)
    (hne : ∃ a ∈ z, ∃ b ∈ z, a ≠ b) : pearson z z = some 1 := by
  rw [pearson_eq, if_pos ⟨rfl, h5⟩]
  have hnum : pearsonNum z z = pearsonDen z := by
    rw [pearsonNum, pearsonDen, zip_self, List.map_map]
    rfl
  have hSnn : 0 ≤ pearsonDen z := pearsonDen_nonneg z
  have hSne : pearsonDen z ≠ 0 := by
    intro h0
    obtain ⟨a, ha, b, hb, hab⟩ := hne
    exact hab ((pearsonDen_zero_eq z h0 a ha).trans
      (pearsonDen_zero_eq z h0 b hb).symm)
  have hsqrt : Real.sqrt ((pearsonDen z * pearsonDen z : ℚ) : ℝ) =
      ((pearsonDen z : ℚ) : ℝ) := by
    rw [Rat.cast_mul]
    exact Real.sqrt_mul_self (by exact_mod_cast hSnn)
  have hcne : ((pearsonDen z : ℚ) : ℝ) ≠ 0 := by exact_mod_cast hSne
  rw [hnum, hsqrt, if_neg hcne, div_self hcne]

/-- Folding index assignments with `set` preserves the array length. -/
theorem foldl_set_length (A : List (ℕ × ℚ)) (base : List ℚ) :
    (A.foldl (fun acc p => acc.set p.1 p.2) base).length = base.length := by
  induction A generalizing base with
  | nil => rfl
  | cons q t ih => rw [List.foldl_cons, ih, List.length_set]

/-- Positions no assignment touches keep their base value. -/
theorem foldl_set_getElem?_not_mem (A : List (ℕ × ℚ)) (base : List ℚ)
    (i : ℕ) (h : ∀ p ∈ A, p.1 ≠ i) :
    (A.foldl (fun acc p => acc.set p.1 p.2) base)[i]? = base[i]? := by
  induction A generalizing base with
  | nil => rfl
  | cons q t ih =>
    rw [List.foldl_cons, ih _ (fun p hp => h p (List.mem_cons_of_mem _ hp))]
    exact List.getElem?_set_ne (h q (List.mem_cons_self q t))

/-- With pairwise-distinct target indices, each in-bounds assignment ends up
at its position. -/
theorem foldl_set_getElem?_mem (A : List (ℕ × ℚ)) :
    ∀ (base : List ℚ) (i : ℕ) (v : ℚ), (i, v) ∈ A →
    (A.map Prod.fst).Nodup → i < base.length →
    (A.foldl (fun acc p => acc.set p.1 p.2) base)[i]? = some v := by
  induction A with
  | nil =>
    intro base i v hmem _ _
    cases hmem
  | cons q t ih =>
    intro base i v hmem hnd hlt
    rw [List.foldl_cons]
    rw [List.map_cons, List.nodup_cons] at hnd
    rcases List.mem_cons.mp hmem with heq | hmem2
    · subst heq
      rw [foldl_set_getElem?_not_mem t _ i (fun p hp hpi => by
        have hp2 : p.1 ∈ t.map Prod.fst := List.mem_map_of_mem Prod.fst hp
        rw [hpi] at hp2
        exact hnd.1 hp2)]
      exact List.getElem?_set_self (by simpa using hlt)
    · exact ih _ i v hmem2 hnd.2 (by simpa using hlt)

/-- The rank vector always has the input's length. -/
theorem rank_length (values : List ℚ) : (rank values).length = values.length := by
  simp only [rank]
  rw [foldl_set_length]
  exact List.length_replicate _ _

/-- Pairwise relations on a list transport to the value components of its
enumeration. -/
theorem pairwise_enumFrom_snd {R : ℚ × ℕ → ℚ × ℕ → Prop}
    (l : List (ℚ × ℕ)) (h : l.Pairwise R) (n : ℕ) :
    (List.enumFrom n l).Pairwise (fun p q => R p.2 q.2) := by
  induction l generalizing n with
  | nil => simp
  | cons a t ih =>
    rw [List.enumFrom_cons]
    rcases List.pairwise_cons.mp h with ⟨ha, ht⟩
    refine List.pairwise_cons.mpr ⟨?_, ih ht (n + 1)⟩
    intro q hq
    have hq2 : q.2 ∈ t := by
      have hmap := List.enumFrom_map_snd (n + 1) t
      exact hmap ▸ List.mem_map_of_mem Prod.snd hq
    exact ha _ hq2

/-- On a sorted list with pairwise-distinct values every tie run is a
singleton, so the grouping walk assigns rank `pos + k + 1` to the element at
sorted position `k`. -/
theorem rankRuns_nodup (l : List (ℚ × ℕ)) (pos fuel : ℕ)
    (hfuel : l.length ≤ fuel) (hnd : (l.map Prod.fst).Nodup) :
    rankRuns fuel l pos =
      (List.enumFrom pos l).map (fun q => (q.2.2, ((q.1 : ℕ) : ℚ) + 1)) := by
  induction l generalizing fuel pos with
  | nil => cases fuel <;> rfl
  | cons hd rest ih =>
    obtain ⟨v, i0⟩ := hd
    cases fuel with
    | zero => simp at hfuel
    | succ f =>
      rw [List.map_cons, List.nodup_cons] at hnd
      have hqne : ∀ q ∈ rest, ¬(q.1 = v) := by
        intro q hq hqv
        have hq2 : q.1 ∈ rest.map Prod.fst := List.mem_map_of_mem Prod.fst hq
        rw [hqv] at hq2
        exact hnd.1 hq2
      have htake : rest.takeWhile (fun p => decide (p.1 = v)) = [] := by
        cases rest with
        | nil => rfl
        | cons q t =>
          simp [List.takeWhile_cons, hqne q (List.mem_cons_self q t)]
      have hdrop : rest.dropWhile (fun p => decide (p.1 = v)) = rest := by
        cases rest with
        | nil => rfl
        | cons q t =>
          simp [List.dropWhile_cons, hqne q (List.mem_cons_self q t)]
      rw [rankRuns, htake, hdrop]
      simp only [List.length_nil, List.map_nil, Nat.zero_add]
      rw [ih (pos + 1) f (by simpa using hfuel) hnd.2]
      rw [List.enumFrom_cons, List.map_cons]
      simp only [List.length_nil, List.map_nil, List.nil_append,
        List.cons_append]
      congr 1
      rw [Prod.mk.injEq]
      refine ⟨rfl, ?_⟩
      push_cast
      ring

/-- Rank of a strictly increasing list: element `k` gets rank `k + 1`. -/
theorem rank_sorted (values : List ℚ) (hs : values.Sorted (· < ·)) :
    rank values = (List.range values.length).map (fun k => ((k : ℕ) : ℚ) + 1) := by
  have hnd : values.Nodup := hs.nodup
  have hpw : (values.enum.map (fun p => (p.2, p.1))).Pairwise
      (fun a b => (fun a b : ℚ × ℕ => decide (a.1 ≤ b.1)) a b = true) := by
    rw [List.pairwise_map]
    have henum : values.enum.Pairwise (fun p q => p.2 < q.2) := by
      have := pairwise_enumFrom_snd (R := fun a b => a.1 < b.1)
      -- specialised below; `values.enum` has type `List (ℕ × ℚ)` so use a
      -- direct induction instead
      clear this
      have aux : ∀ (l : List ℚ), l.Pairwise (· < ·) → ∀ n,
          (List.enumFrom n l).Pairwise (fun p q => p.2 < q.2) := by
        intro l hl
        induction l with
        | nil => simp
        | cons a t iht =>
          intro n
          rw [List.enumFrom_cons]
          rcases List.pairwise_cons.mp hl with ⟨ha, ht⟩
          refine List.pairwise_cons.mpr ⟨?_, iht ht (n + 1)⟩
          intro q hq
          have hq2 : q.2 ∈ t := by
            have hmap := List.enumFrom_map_snd (n + 1) t
            exact hmap ▸ List.mem_map_of_mem Prod.snd hq
          exact ha _ hq2
      exact aux values hs 0
    exact henum.imp (fun h => by
      simp only [decide_eq_true_eq]
      exact le_of_lt h)
  have hsort : (values.enum.map (fun p => (p.2, p.1))).mergeSort
      (fun a b => decide (a.1 ≤ b.1)) = values.enum.map (fun p => (p.2, p.1)) :=
    List.mergeSort_of_sorted hpw
  simp only [rank, hsort]
  have hfst : ((values.enum.map (fun p => (p.2, p.1))).map Prod.fst).Nodup := by
    rw [List.map_map]
    have : (Prod.fst ∘ fun p : ℕ × ℚ => (p.2, p.1)) = Prod.snd := rfl
    rw [this, List.enum_map_snd]
    exact hnd
  rw [rankRuns_nodup _ 0 _ le_rfl hfst]
  have hA : (List.enumFrom 0 (values.enum.map (fun p => (p.2, p.1)))).map
      (fun q => (q.2.2, ((q.1 : ℕ) : ℚ) + 1)) =
      (List.range values.length).map (fun k => (k, ((k : ℕ) : ℚ) + 1)) := by
    apply List.ext_getElem
    · simp
    · intro k h1 h2
      simp only [List.getElem_map, List.getElem_enumFrom, List.getElem_enum,
        List.getElem_range]
      simp
  rw [hA]
  apply List.ext_getElem
  · rw [foldl_set_length]
    simp
  · intro k h1 h2
    have hk : k < values.length := by
      rw [foldl_set_length] at h1
      simpa using h1
    have hsome := foldl_set_getElem?_mem
      ((List.range values.length).map (fun k => (k, ((k : ℕ) : ℚ) + 1)))
      (List.replicate values.length 0) k (((k : ℕ) : ℚ) + 1)
      (List.mem_map_of_mem _ (List.mem_range.mpr hk))
      (by
        rw [List.map_map]
        have : (Prod.fst ∘ fun k : ℕ => (k, ((k : ℕ) : ℚ) + 1)) = id := rfl
        rw [this, List.map_id]
        exact List.nodup_range _)
      (by simpa using hk)
    have := List.getElem?_eq_getElem h1
    rw [this] at hsome
    simp only [List.getElem_map, List.getElem_range]
    exact Option.some.inj hsome

/-- For pairwise-distinct values, rank `k + 1` occurs in the rank vector for
every `k` below the length. -/
theorem rank_nodup_mem (values : List ℚ) (hnd : values.Nodup) (k : ℕ)
    (hk : k < values.length) : ((k : ℕ) : ℚ) + 1 ∈ rank values := by
  simp only [rank]
  have hperm : ((values.enum.map (fun p => (p.2, p.1))).mergeSort
      (fun a b => decide (a.1 ≤ b.1))).Perm (values.enum.map (fun p => (p.2, p.1))) :=
    List.mergeSort_perm _ _
  set indexed := (values.enum.map (fun p => (p.2, p.1))).mergeSort
    (fun a b => decide (a.1 ≤ b.1)) with hidx
  have hswap_fst : ((values.enum.map (fun p => (p.2, p.1))).map Prod.fst) = values := by
    rw [List.map_map]
    have : (Prod.fst ∘ fun p : ℕ × ℚ => (p.2, p.1)) = Prod.snd := rfl
    rw [this, List.enum_map_snd]
  have hswap_snd : ((values.enum.map (fun p => (p.2, p.1))).map Prod.snd) =
      List.range values.length := by
    rw [List.map_map]
    have : (Prod.snd ∘ fun p : ℕ × ℚ => (p.2, p.1)) = Prod.fst := rfl
    rw [this, List.enum_map_fst]
  have hfst : (indexed.map Prod.fst).Nodup := by
    have hp : (indexed.map Prod.fst).Perm values := by
      have := hperm.map Prod.fst
      rwa [hswap_fst] at this
    exact hp.nodup_iff.mpr hnd
  have hlen : indexed.length = values.length := by
    have := hperm.length_eq
    simpa using this
  rw [rankRuns_nodup indexed 0 indexed.length le_rfl hfst]
  set i := (indexed.get ⟨k, by omega⟩).2 with hi
  have hiv : i ∈ indexed.map Prod.snd := by
    rw [hi]
    exact List.mem_map_of_mem Prod.snd (List.getElem_mem _)
  have hilt : i < values.length := by
    have hp : (indexed.map Prod.snd).Perm (List.range values.length) := by
      have := hperm.map Prod.snd
      rwa [hswap_snd] at this
    have := hp.mem_iff.mp hiv
    exact List.mem_range.mp this
  have hndsnd : (indexed.map Prod.snd).Nodup := by
    have hp : (indexed.map Prod.snd).Perm (List.range values.length) := by
      have := hperm.map Prod.snd
      rwa [hswap_snd] at this
    exact hp.nodup_iff.mpr (List.nodup_range _)
  have hmemA : (i, ((k : ℕ) : ℚ) + 1) ∈ (List.enumFrom 0 indexed).map
      (fun q => (q.2.2, ((q.1 : ℕ) : ℚ) + 1)) := by
    refine List.mem_map.mpr ⟨(k, indexed.get ⟨k, by omega⟩), ?_, by rw [hi]⟩
    refine List.mem_iff_getElem.mpr ⟨k, by simpa using (by omega : k < indexed.length), ?_⟩
    rw [List.getElem_enumFrom]
    simp
  have hndA : (((List.enumFrom 0 indexed).map
      (fun q => (q.2.2, ((q.1 : ℕ) : ℚ) + 1))).map Prod.fst).Nodup := by
    rw [List.map_map]
    have hcomp : ((List.enumFrom 0 indexed).map
        (Prod.fst ∘ fun q : ℕ × (ℚ × ℕ) => (q.2.2, ((q.1 : ℕ) : ℚ) + 1))) =
        indexed.map Prod.snd := by
      have : (Prod.fst ∘ fun q : ℕ × (ℚ × ℕ) => (q.2.2, ((q.1 : ℕ) : ℚ) + 1)) =
          (Prod.snd ∘ Prod.snd) := rfl
      rw [this, ← List.map_map, List.enumFrom_map_snd]
    rw [hcomp]
    exact hndsnd
  have hsome := foldl_set_getElem?_mem _ (List.replicate values.length 0) i
    (((k : ℕ) : ℚ) + 1) hmemA hndA (by simpa using hilt)
  have hmem := List.getElem?_mem hsome
  exact hmem

/-- C8: for every pairwise-distinct sequence of length at least 5, the
Spearman correlation of the sequence with itself is exactly 1, hence within
the claimed 1e-9 of 1. -/
theorem spearman_self (xs : List ℚ) (hnd : xs.Nodup) (h5 : 5 ≤ xs.length) :
    ∃ r : ℝ, spearman xs xs = some r ∧ |r - 1| ≤ 1e-9 := by
  refine ⟨1, ?_, by norm_num⟩
  rw [spearman, if_pos ⟨rfl, h5⟩]
  apply pearson_self
  · rw [rank_length]
    exact h5
  · refine ⟨1, ?_, 2, ?_, by norm_num⟩
    · have := rank_nodup_mem xs hnd 0 (by omega)
      simpa using this
    · have := rank_nodup_mem xs hnd 1 (by omega)
      norm_num at this
      exact this

/-- Witness for C8 at the spec's example `[1,2,3,4,5]`. -/
theorem spearman_self_witness :
    ∃ r : ℝ, spearman [1, 2, 3, 4, 5] [1, 2, 3, 4, 5] = some r ∧
      |r - 1| ≤ 1e-9 :=
  spearman_self [1, 2, 3, 4, 5] (by norm_num) (by norm_num)

/-- Spearman correlation of two short sequences is null. -/
theorem spearman_short (xs ys : List ℚ) (h : xs.length < 5) :
    spearman xs ys = none := by
  rw [spearman, if_neg]
  intro hc
  omega

/-- Spearman correlation of two equally long strictly increasing sequences
of length at least 5 is exactly 1 (both rank to `1..n`). -/
theorem spearman_perfect (xs ys : List ℚ) (hx : xs.Sorted (· < ·))
    (hy : ys.Sorted (· < ·)) (hlen : xs.length = ys.length)
    (h5 : 5 ≤ xs.length) : spearman xs ys = some 1 := by
  rw [spearman, if_pos ⟨hlen, h5⟩, rank_sorted xs hx, rank_sorted ys hy, hlen]
  apply pearson_self
  · simpa using (by omega : 5 ≤ ys.length)
  · refine ⟨1, ?_, 2, ?_, by norm_num⟩
    · refine List.mem_map.mpr ⟨0, List.mem_range.mpr (by omega), by norm_num⟩
    · refine List.mem_map.mpr ⟨1, List.mem_range.mpr (by omega), by norm_num⟩

/-- Lag -2 entry of the concrete lag test: only 4 pairs, so no
correlation. -/
theorem lagTest_m2 :
    lagCorrelation lagTestRows .activity_score .readiness_score (-2) .spearman
      = ⟨-2, none, 4⟩ := by
  have hp : lagPairs lagTestRows .activity_score .readiness_score (-2) =
      [(3, 0), (4, 1), (5, 2), (6, 3)] := by decide
  rw [lagCorrelation, hp]
  show (⟨-2, correlate .spearman [3, 4, 5, 6] [0, 1, 2, 3], 4⟩ : LagCorrelation)
    = ⟨-2, none, 4⟩
  rw [show correlate CorrelationMethod.spearman [3, 4, 5, 6] [0, 1, 2, 3] =
    spearman [3, 4, 5, 6] [0, 1, 2, 3] from rfl, spearman_short _ _ (by norm_num)]

/-- Lag -1 entry of the concrete lag test: five perfectly monotone pairs. -/
theorem lagTest_m1 :
    lagCorrelation lagTestRows .activity_score .readiness_score (-1) .spearman
      = ⟨-1, some 1, 5⟩ := by
  have hp : lagPairs lagTestRows .activity_score .readiness_score (-1) =
      [(2, 0), (3, 1), (4, 2), (5, 3), (6, 4)] := by decide
  rw [lagCorrelation, hp]
  show (⟨-1, correlate .spearman [2, 3, 4, 5, 6] [0, 1, 2, 3, 4], 5⟩ : LagCorrelation)
    = ⟨-1, some 1, 5⟩
  rw [show correlate CorrelationMethod.spearman [2, 3, 4, 5, 6] [0, 1, 2, 3, 4] =
    spearman [2, 3, 4, 5, 6] [0, 1, 2, 3, 4] from rfl,
    spearman_perfect _ _ (by norm_num [List.sorted_cons])
      (by norm_num [List.sorted_cons]) (by norm_num) (by norm_num)]

/-- Lag 0 entry of the concrete lag test: six perfectly monotone pairs. -/
theorem lagTest_0 :
    lagCorrelation lagTestRows .activity_score .readiness_score 0 .spearman
      = ⟨0, some 1, 6⟩ := by
  have hp : lagPairs lagTestRows .activity_score .readiness_score 0 =
      [(1, 0), (2, 1), (3, 2), (4, 3), (5, 4), (6, 5)] := by decide
  rw [lagCorrelation, hp]
  show (⟨0, correlate .spearman [1, 2, 3, 4, 5, 6] [0, 1, 2, 3, 4, 5], 6⟩ : LagCorrelation)
    = ⟨0, some 1, 6⟩
  rw [show correlate CorrelationMethod.spearman [1, 2, 3, 4, 5, 6] [0, 1, 2, 3, 4, 5] =
    spearman [1, 2, 3, 4, 5, 6] [0, 1, 2, 3, 4, 5] from rfl,
    spearman_perfect _ _ (by norm_num [List.sorted_cons])
      (by norm_num [List.sorted_cons]) (by norm_num) (by norm_num)]

/-- Lag +1 entry of the concrete lag test: five identical pairs. -/
theorem lagTest_1 :
    lagCorrelation lagTestRows .activity_score .readiness_score 1 .spearman
      = ⟨1, some 1, 5⟩ := by
  have hp : lagPairs lagTestRows .activity_score .readiness_score 1 =
      [(1, 1), (2, 2), (3, 3), (4, 4), (5, 5)] := by decide
  rw [lagCorrelation, hp]
  show (⟨1, correlate .spearman [1, 2, 3, 4, 5] [1, 2, 3, 4, 5], 5⟩ : LagCorrelation)
    = ⟨1, some 1, 5⟩
  rw [show correlate CorrelationMethod.spearman [1, 2, 3, 4, 5] [1, 2, 3, 4, 5] =
    spearman [1, 2, 3, 4, 5] [1, 2, 3, 4, 5] from rfl,
    spearman_perfect _ _ (by norm_num [List.sorted_cons])
      (by norm_num [List.sorted_cons]) (by norm_num) (by norm_num)]

/-- Lag +2 entry of the concrete lag test: only 4 pairs, so no
correlation. -/
theorem lagTest_2 :
    lagCorrelation lagTestRows .activity_score .readiness_score 2 .spearman
      = ⟨2, none, 4⟩ := by
  have hp : lagPairs lagTestRows .activity_score .readiness_score 2 =
      [(1, 2), (2, 3), (3, 4), (4, 5)] := by decide
  rw [lagCorrelation, hp]
  show (⟨2, correlate .spearman [1, 2, 3, 4] [2, 3, 4, 5], 4⟩ : LagCorrelation)
    = ⟨2, none, 4⟩
  rw [show correlate CorrelationMethod.spearman [1, 2, 3, 4] [2, 3, 4, 5] =
    spearman [1, 2, 3, 4] [2, 3, 4, 5] from rfl, spearman_short _ _ (by norm_num)]

/-- C2: on six consecutive days with activity 1..6 and readiness 0..5
(readiness on day D equals activity on day D-1) and `maxLagDays = 2`, the
activity-to-readiness lag analysis reports `best_lag = 1`: lags -1, 0 and +1
all attain correlation 1 with at least 5 pairs, lags of magnitude 2 have
only 4 pairs and are excluded, and the tie on `|r|` resolves to the largest
lag. -/
theorem lag_analysis_best_lag_one :
    (computeLagAnalysis lagTestRows .activity_score .readiness_score 2
      .spearman "lag_activity_readiness" "Activity → Readiness (lag)").best_lag
      = some 1 := by
  rw [computeLagAnalysis]
  have hlist : (List.range (2 * (2 : ℤ) + 1).toNat).map
      (fun i => -(2 : ℤ) + (i : ℤ)) = [-2, -1, 0, 1, 2] := by decide
  simp only [hlist, List.map_cons, List.map_nil, lagTest_m2, lagTest_m1,
    lagTest_0, lagTest_1, lagTest_2]
  have hfilter : ([⟨-2, none, 4⟩, ⟨-1, some 1, 5⟩, ⟨0, some 1, 6⟩,
      ⟨1, some 1, 5⟩, ⟨2, none, 4⟩] : List LagCorrelation).filter
      (fun l => l.r.isSome) =
      [⟨-1, some 1, 5⟩, ⟨0, some 1, 6⟩, ⟨1, some 1, 5⟩] := rfl
  rw [hfilter]
  have hbetter1 : lagBetter ⟨0, some 1, 6⟩ ⟨-1, some 1, 5⟩ :=
    Or.inr ⟨rfl, by norm_num⟩
  have hbetter2 : lagBetter ⟨1, some 1, 5⟩ ⟨0, some 1, 6⟩ :=
    Or.inr ⟨rfl, by norm_num⟩
  have hpick : pickBest [⟨-1, some 1, 5⟩, ⟨0, some 1, 6⟩, ⟨1, some 1, 5⟩] =
      some ⟨1, some 1, 5⟩ := by
    classical
    rw [pickBest]
    simp only [List.foldl_cons, List.foldl_nil]
    rw [show pickStep none ⟨-1, some 1, 5⟩ = some ⟨-1, some 1, 5⟩ from rfl]
    rw [show pickStep (some ⟨-1, some 1, 5⟩) ⟨0, some 1, 6⟩ =
      (if lagBetter ⟨0, some 1, 6⟩ ⟨-1, some 1, 5⟩ then
        some (⟨0, some 1, 6⟩ : LagCorrelation) else some ⟨-1, some 1, 5⟩) from rfl]
    rw [if_pos hbetter1]
    rw [show pickStep (some ⟨0, some 1, 6⟩) ⟨1, some 1, 5⟩ =
      (if lagBetter ⟨1, some 1, 5⟩ ⟨0, some 1, 6⟩ then
        some (⟨1, some 1, 5⟩ : LagCorrelation) else some ⟨0, some 1, 6⟩) from rfl]
    rw [if_pos hbetter2]
  rw [hpick]
  rfl

/-- With unique days the last-binding map lookup is the first-match
lookup. -/
theorem byDayGet_nodup (rows : List DailyRow)
    (hnd : (rows.map (·.day)).Nodup) (d : ℤ) :
    byDayGet rows d = rows.find? (fun r => decide (r.day = d)) := by
  induction rows with
  | nil => rfl
  | cons r rs ih =>
    rw [List.map_cons, List.nodup_cons] at hnd
    rw [byDayGet, List.reverse_cons, List.find?_append]
    have hrec : rs.reverse.find? (fun r => decide (r.day = d)) =
        rs.find? (fun r => decide (r.day = d)) := ih hnd.2
    by_cases hr : r.day = d
    · have hnone : rs.find? (fun t => decide (t.day = d)) = none := by
        rw [List.find?_eq_none]
        intro t ht htd
        rw [decide_eq_true_eq] at htd
        have hmem : t.day ∈ rs.map (·.day) := List.mem_map_of_mem (·.day) ht
        rw [htd, ← hr] at hmem
        exact hnd.1 hmem
      have hdec : decide (r.day = d) = true := by simpa using hr
      rw [hrec, hnone]
      simp [List.find?_cons, hdec]
    · have hdec : decide (r.day = d) = false := by simpa using hr
      rw [hrec]
      simp [List.find?_cons, hdec]

/-- The best-lag precedence is irreflexive. -/
theorem lagBetter_irrefl (a : LagCorrelation) : ¬ lagBetter a a := by
  rw [lagBetter]
  push_neg
  exact ⟨le_rfl, fun _ => le_rfl⟩

/-- Failing to precede is transitive (the comparator is a strict weak
order). -/
theorem lagNotBetter_trans {x y z : LagCorrelation}
    (hxy : ¬ lagBetter x y) (hyz : ¬ lagBetter y z) : ¬ lagBetter x z := by
  rw [lagBetter] at hxy hyz ⊢
  push_neg at hxy hyz ⊢
  refine ⟨hxy.1.trans hyz.1, fun hEq => ?_⟩
  have hy_le : |y.r.getD 0| ≤ |x.r.getD 0| := by
    rw [hEq]
    exact hyz.1
  have h1 : |x.r.getD 0| = |y.r.getD 0| := le_antisymm hxy.1 hy_le
  have h2 : |y.r.getD 0| = |z.r.getD 0| := by rw [← h1, hEq]
  exact (hxy.2 h1).trans (hyz.2 h2)

/-- Preceding a candidate that itself does not precede `b` means preceding
`b`...  stated contrapositively: if `l` precedes `a` and `l` does not
precede `b`, then `a` does not precede `b`. -/
theorem lagBetter_absorb {l a b : LagCorrelation}
    (hla : lagBetter l a) (hlb : ¬ lagBetter l b) : ¬ lagBetter a b := by
  intro hab
  rw [lagBetter] at hla hab
  rw [lagBetter] at hlb
  push_neg at hlb
  rcases hla with h1 | ⟨h1, h1l⟩ <;> rcases hab with h2 | ⟨h2, h2l⟩
  · exact absurd (h2.trans h1) (not_lt.mpr hlb.1)
  · rw [h2] at h1
    exact absurd h1 (not_lt.mpr hlb.1)
  · rw [← h1] at h2
    exact absurd h2 (not_lt.mpr hlb.1)
  · exact absurd (h2l.trans h1l) (not_lt.mpr (hlb.2 (h1.trans h2)))

/-- The scan over any suffix started at `some a` lands on a maximal element
that is `a` or a member of the suffix. -/
theorem pickBest_aux (t : List LagCorrelation) : ∀ a : LagCorrelation,
    ∃ b, t.foldl pickStep (some a) = some b ∧ (b = a ∨ b ∈ t) ∧
      ¬ lagBetter a b ∧ ∀ c ∈ t, ¬ lagBetter c b := by
  induction t with
  | nil =>
    intro a
    exact ⟨a, rfl, Or.inl rfl, lagBetter_irrefl a, by simp⟩
  | cons l t ih =>
    intro a
    rw [List.foldl_cons]
    by_cases hl : lagBetter l a
    · rw [show pickStep (some a) l = some l from by
        rw [pickStep]; exact if_pos hl]
      obtain ⟨b, heq, hmem, hlb, hall⟩ := ih l
      refine ⟨b, heq, ?_, ?_, ?_⟩
      · rcases hmem with rfl | h
        · exact Or.inr (List.mem_cons_self _ _)
        · exact Or.inr (List.mem_cons_of_mem _ h)
      · exact lagBetter_absorb hl hlb
      · intro c hc
        rcases List.mem_cons.mp hc with rfl | hc2
        · exact hlb
        · exact hall c hc2
    · rw [show pickStep (some a) l = some a from by
        rw [pickStep]; exact if_neg hl]
      obtain ⟨b, heq, hmem, hab, hall⟩ := ih a
      refine ⟨b, heq, ?_, hab, ?_⟩
      · rcases hmem with rfl | h
        · exact Or.inl rfl
        · exact Or.inr (List.mem_cons_of_mem _ h)
      · intro c hc
        rcases List.mem_cons.mp hc with rfl | hc2
        · exact lagNotBetter_trans hl hab
        · exact hall c hc2

/-- The selected candidate is a maximal member; no candidate means no
selection. -/
theorem pickBest_spec (c : List LagCorrelation) :
    (pickBest c = none ↔ c = []) ∧
    (∀ b, pickBest c = some b → b ∈ c ∧ ∀ e ∈ c, ¬ lagBetter e b) := by
  cases c with
  | nil => exact ⟨by simp [pickBest], fun b h => by simp [pickBest] at h⟩
  | cons l t =>
    rw [pickBest, List.foldl_cons,
      show pickStep none l = some l from rfl]
    obtain ⟨b, heq, hmem, hlb, hall⟩ := pickBest_aux t l
    rw [heq]
    refine ⟨by simp, ?_⟩
    intro b2 hb2
    obtain rfl : b = b2 := Option.some.inj hb2
    refine ⟨?_, ?_⟩
    · rcases hmem with rfl | h
      · exact List.mem_cons_self _ _
      · exact List.mem_cons_of_mem _ h
    · intro e he
      rcases List.mem_cons.mp he with rfl | he2
      · exact hlb
      · exact hall e he2

/-- C1: the lag engine.  With `day` unique per row (the daily-row
invariant):
first, for every lag `L` the entry correlates exactly the pairs
`(row[D].x, row[D+L].y)` where the target row is looked up by calendar-day
addition `row.day + L` — not by row-index offset — so a day gap simply
yields no pair; second, an entry with fewer than 5 paired observations has
`r = none`; third, the lags run over `-maxLag .. maxLag`; fourth,
`best_lag`/`best_r` come from an entry with non-null `r` maximising `|r|`,
exact ties on `|r|` resolved toward the larger lag, entries with null `r`
(in particular all with fewer than 5 pairs) being excluded, and `best_lag`
is null exactly when every entry's `r` is null. -/
theorem computeLagAnalysis_spec (rows : List DailyRow) (xKey yKey : MetricKey)
    (maxLag : ℤ) (method : CorrelationMethod) (id title : String)
    (hnd : (rows.map (·.day)).Nodup) :
    (∀ L : ℤ, lagCorrelation rows xKey yKey L method =
      { lag := L
        r := correlate method
          ((rows.filterMap (fun row =>
            (rowGet row xKey).bind (fun x =>
              ((rows.find? (fun t => decide (t.day = row.day + L))).bind
                (fun t => rowGet t yKey)).map (fun y => (x, y))))).map Prod.fst)
          ((rows.filterMap (fun row =>
            (rowGet row xKey).bind (fun x =>
              ((rows.find? (fun t => decide (t.day = row.day + L))).bind
                (fun t => rowGet t yKey)).map (fun y => (x, y))))).map Prod.snd)
        n := (rows.filterMap (fun row =>
            (rowGet row xKey).bind (fun x =>
              ((rows.find? (fun t => decide (t.day = row.day + L))).bind
                (fun t => rowGet t yKey)).map (fun y => (x, y))))).length }) ∧
    (∀ e ∈ (computeLagAnalysis rows xKey yKey maxLag method id title).lags,
      e.n < 5 → e.r = none) ∧
    ((computeLagAnalysis rows xKey yKey maxLag method id title).lags.map
      (·.lag) = (List.range (2 * maxLag + 1).toNat).map
        (fun i => -maxLag + (i : ℤ))) ∧
    ((computeLagAnalysis rows xKey yKey maxLag method id title).best_lag = none
      → ∀ e ∈ (computeLagAnalysis rows xKey yKey maxLag method id title).lags,
        e.r = none) ∧
    (∀ L : ℤ,
      (computeLagAnalysis rows xKey yKey maxLag method id title).best_lag
        = some L →
      ∃ e ∈ (computeLagAnalysis rows xKey yKey maxLag method id title).lags,
        e.lag = L ∧ e.r ≠ none ∧
        (computeLagAnalysis rows xKey yKey maxLag method id title).best_r = e.r ∧
        ∀ e2 ∈ (computeLagAnalysis rows xKey yKey maxLag method id title).lags,
          e2.r ≠ none →
            |e2.r.getD 0| ≤ |e.r.getD 0| ∧
              (|e2.r.getD 0| = |e.r.getD 0| → e2.lag ≤ e.lag)) := by
  refine ⟨?_, ?_, ?_, ?_, ?_⟩
  · intro L
    rw [lagCorrelation]
    simp only [lagPairs, byDayGet_nodup rows hnd, addDays, List.length_map]
  · intro e he hn
    rw [computeLagAnalysis] at he
    simp only [List.mem_map] at he
    obtain ⟨L, -, rfl⟩ := he
    rw [lagCorrelation] at hn ⊢
    simp only at hn ⊢
    exact correlate_short method _ _ (by simpa using hn)
  · rw [computeLagAnalysis]
    simp only [List.map_map]
    rfl
  · intro hnone e he
    rw [computeLagAnalysis] at hnone he
    simp only [Option.map_eq_none'] at hnone
    have hempty := ((pickBest_spec _).1).mp hnone
    rw [List.filter_eq_nil_iff] at hempty
    have := hempty e he
    simpa using this
  · intro L hL
    rw [computeLagAnalysis] at hL ⊢
    simp only [Option.map_eq_some'] at hL
    obtain ⟨b, hb, hblag⟩ := hL
    obtain ⟨hbmem, hbmax⟩ := (pickBest_spec _).2 b hb
    rw [List.mem_filter] at hbmem
    refine ⟨b, hbmem.1, hblag,
      by simpa [Option.isSome_iff_ne_none] using hbmem.2, by rw [hb]; rfl, ?_⟩
    intro e2 he2 hr2
    have he2f : e2 ∈ (List.map
        (fun lag => lagCorrelation rows xKey yKey lag method)
        ((List.range (2 * maxLag + 1).toNat).map
          (fun i => -maxLag + (i : ℤ)))).filter (fun l => l.r.isSome) := by
      rw [List.mem_filter]
      exact ⟨he2, by simpa [Option.isSome_iff_ne_none] using hr2⟩
    have := hbmax e2 he2f
    rw [lagBetter] at this
    push_neg at this
    exact this

/-- Witness for C1 at the concrete lag-test rows (days unique), with
`maxLag = 2` and the Spearman method. -/
theorem computeLagAnalysis_spec_witness :
    (lagTestRows.map (·.day)).Nodup ∧
    (    (∀ L : ℤ, lagCorrelation lagTestRows MetricKey.activity_score MetricKey.readiness_score L CorrelationMethod.spearman =
      { lag := L
        r := correlate CorrelationMethod.spearman
          ((lagTestRows.filterMap (fun row =>
            (rowGet row MetricKey.activity_score).bind (fun x =>
              ((lagTestRows.find? (fun t => decide (t.day = row.day + L))).bind
                (fun t => rowGet t MetricKey.readiness_score)).map (fun y => (x, y))))).map Prod.fst)
          ((lagTestRows.filterMap (fun row =>
            (rowGet row MetricKey.activity_score).bind (fun x =>
              ((lagTestRows.find? (fun t => decide (t.day = row.day + L))).bind
                (fun t => rowGet t MetricKey.readiness_score)).map (fun y => (x, y))))).map Prod.snd)
        n := (lagTestRows.filterMap (fun row =>
            (rowGet row MetricKey.activity_score).bind (fun x =>
              ((lagTestRows.find? (fun t => decide (t.day = row.day + L))).bind
                (fun t => rowGet t MetricKey.readiness_score)).map (fun y => (x, y))))).length }) ∧
    (∀ e ∈ (computeLagAnalysis lagTestRows MetricKey.activity_score MetricKey.readiness_score (2 : ℤ) CorrelationMethod.spearman "lag_activity_readiness" "Activity → Readiness (lag)").lags,
      e.n < 5 → e.r = none) ∧
    ((computeLagAnalysis lagTestRows MetricKey.activity_score MetricKey.readiness_score (2 : ℤ) CorrelationMethod.spearman "lag_activity_readiness" "Activity → Readiness (lag)").lags.map
      (·.lag) = (List.range (2 * (2 : ℤ) + 1).toNat).map
        (fun i => -(2 : ℤ) + (i : ℤ))) ∧
    ((computeLagAnalysis lagTestRows MetricKey.activity_score MetricKey.readiness_score (2 : ℤ) CorrelationMethod.spearman "lag_activity_readiness" "Activity → Readiness (lag)").best_lag = none
      → ∀ e ∈ (computeLagAnalysis lagTestRows MetricKey.activity_score MetricKey.readiness_score (2 : ℤ) CorrelationMethod.spearman "lag_activity_readiness" "Activity → Readiness (lag)").lags,
        e.r = none) ∧
    (∀ L : ℤ,
      (computeLagAnalysis lagTestRows MetricKey.activity_score MetricKey.readiness_score (2 : ℤ) CorrelationMethod.spearman "lag_activity_readiness" "Activity → Readiness (lag)").best_lag
        = some L →
      ∃ e ∈ (computeLagAnalysis lagTestRows MetricKey.activity_score MetricKey.readiness_score (2 : ℤ) CorrelationMethod.spearman "lag_activity_readiness" "Activity → Readiness (lag)").lags,
        e.lag = L ∧ e.r ≠ none ∧
        (computeLagAnalysis lagTestRows MetricKey.activity_score MetricKey.readiness_score (2 : ℤ) CorrelationMethod.spearman "lag_activity_readiness" "Activity → Readiness (lag)").best_r = e.r ∧
        ∀ e2 ∈ (computeLagAnalysis lagTestRows MetricKey.activity_score MetricKey.readiness_score (2 : ℤ) CorrelationMethod.spearman "lag_activity_readiness" "Activity → Readiness (lag)").lags,
          e2.r ≠ none →
            |e2.r.getD 0| ≤ |e.r.getD 0| ∧
              (|e2.r.getD 0| = |e.r.getD 0| → e2.lag ≤ e.lag))) :=
  ⟨by decide, computeLagAnalysis_spec lagTestRows MetricKey.activity_score
    MetricKey.readiness_score 2 CorrelationMethod.spearman
    "lag_activity_readiness" "Activity → Readiness (lag)" (by decide)⟩

/-- The guarded rounded average equals the unguarded one: an empty category
averages to 0 and rounds to 0, the initial value. -/
theorem roundAvg_guard {α : Type} (l : List α) (f : α → ℚ) :
    (if 0 < l.length then jsRound (average (l.map f)) else 0) =
      jsRound (average (l.map f)) := by
  cases l with
  | nil =>
    simp only [List.length_nil, lt_self_iff_false, if_false, List.map_nil]
    rw [jsRound, average]
    norm_num
  | cons a t => simp

/-- The guarded filter count equals the unguarded one. -/
theorem countFilter_guard {α : Type} (l : List α) (p : α → Bool) :
    (if 0 < l.length then (l.filter p).length else 0) = (l.filter p).length := by
  cases l with
  | nil => simp
  | cons a t => simp

/-- Counterexample to C7 as stated: with no data at all the average sleep
score is 0, so the claimed trigger condition `average sleep score < 70`
holds, yet the code appends no recommendation (it also requires the average
to be positive). -/
theorem analyzeHealthData_counterexample :
    jsRound (average (([] : List DailySleepRec).map (·.score))) < 70 ∧
    (analyzeHealthData ⟨[], [], [], [], []⟩).recommendations = [] := by
  constructor
  · rw [List.map_nil, average]
    norm_num [jsRound]
  · rfl

/-- C7 as amended: the four threshold rules fire on the rounded averages of
the raw inputs with a positivity guard — average sleep score strictly
between 0 and 70 (HIGH), average steps strictly between 0 and 7000
(MEDIUM), average readiness strictly between 0 and 75 (HIGH), and more
stressed than restored days (HIGH) — each appending exactly one structured
recommendation in that insertion order, and no other recommendations are
produced; the sleep rule always links the sleep-optimization protocol, the
steps rule links no protocol, and the stress rule always links the
stress-reduction protocol. -/
theorem analyzeHealthData_recommendation_rules (data : AnalyzeHealthInput) :
    ((analyzeHealthData data).recommendations.map
      (fun rec => (rec.category, rec.priority)) =
      (if 0 < jsRound (average (data.sleep.map (·.score))) ∧
          jsRound (average (data.sleep.map (·.score))) < 70 then
        [("🌙 Sleep Quality Optimization", "HIGH")] else []) ++
      (if 0 < jsRound (average (data.activity.map (·.steps))) ∧
          jsRound (average (data.activity.map (·.steps))) < 7000 then
        [("🏃 Daily Movement", "MEDIUM")] else []) ++
      (if 0 < jsRound (average (data.readiness.map (·.score))) ∧
          jsRound (average (data.readiness.map (·.score))) < 75 then
        [("💪 Recovery Optimization", "HIGH")] else []) ++
      (if (data.stress.filter
            (fun d => decide (d.day_summary = some "restored"))).length <
          (data.stress.filter
            (fun d => decide (d.day_summary = some "stressed"))).length then
        [("🧘 Stress Management", "HIGH")] else [])) ∧
    (∀ rec ∈ (analyzeHealthData data).recommendations,
      (rec.category = "🌙 Sleep Quality Optimization" →
        rec.protocol = some sleep_optimization) ∧
      (rec.category = "🏃 Daily Movement" → rec.protocol = none) ∧
      (rec.category = "🧘 Stress Management" →
        rec.protocol = some stress_reduction)) := by
  rw [analyzeHealthData]
  simp only [roundAvg_guard, countFilter_guard]
  constructor
  · split_ifs <;> simp
  · intro rec hrec
    simp only [List.mem_append] at hrec
    rcases hrec with ((hrec | hrec) | hrec) | hrec
    · by_cases hc : 0 < jsRound (average (data.sleep.map (·.score))) ∧
          jsRound (average (data.sleep.map (·.score))) < 70
      · rw [if_pos hc] at hrec
        rw [List.mem_singleton] at hrec
        subst hrec
        refine ⟨fun _ => ?_, by simp, by simp⟩
        simp only [getRecommendedProtocols]
        rw [if_pos (by
          show jsRound (average (data.sleep.map (·.score))) < 75
          omega)]
        simp [sleep_optimization]
      · rw [if_neg hc] at hrec
        simp at hrec
    · by_cases hc : 0 < jsRound (average (data.activity.map (·.steps))) ∧
          jsRound (average (data.activity.map (·.steps))) < 7000
      · rw [if_pos hc] at hrec
        rw [List.mem_singleton] at hrec
        subst hrec
        exact ⟨by simp, fun _ => rfl, by simp⟩
      · rw [if_neg hc] at hrec
        simp at hrec
    · by_cases hc : 0 < jsRound (average (data.readiness.map (·.score))) ∧
          jsRound (average (data.readiness.map (·.score))) < 75
      · rw [if_pos hc] at hrec
        rw [List.mem_singleton] at hrec
        subst hrec
        exact ⟨by simp, by simp, by simp⟩
      · rw [if_neg hc] at hrec
        simp at hrec
    · by_cases hc : (data.stress.filter
            (fun d => decide (d.day_summary = some "restored"))).length <
          (data.stress.filter
            (fun d => decide (d.day_summary = some "stressed"))).length
      · rw [if_pos hc] at hrec
        rw [List.mem_singleton] at hrec
        subst hrec
        refine ⟨by simp, by simp, fun _ => ?_⟩
        simp only [getRecommendedProtocols]
        rw [if_pos hc]
        split_ifs <;>
          simp [sleep_optimization, recovery_optimization, stress_reduction,
            List.find?_append]
      · rw [if_neg hc] at hrec
        simp at hrec

/-- Witness for the amended C7: one sleep day scoring 50 and one stressed
day trigger exactly the sleep and stress rules, in order. -/
theorem analyzeHealthData_recommendation_rules_witness :
    (analyzeHealthData
      ⟨[⟨0, 50⟩], [], [], [⟨0, 0, 0, some "stressed"⟩], []⟩).recommendations.map
      (fun rec => (rec.category, rec.priority)) =
      [("🌙 Sleep Quality Optimization", "HIGH"),
       ("🧘 Stress Management", "HIGH")] := by
  have h := (analyzeHealthData_recommendation_rules
    ⟨[⟨0, 50⟩], [], [], [⟨0, 0, 0, some "stressed"⟩], []⟩).1
  rw [h]
  norm_num [average, jsRound, List.filter]
  rfl

/-- The detailed-sleep loop body touches only its own fields. -/
theorem sleepDetailedUpdate_preserves (s : SleepRec) (row : DailyRow) :
    (sleepDetailedUpdate s row).day = row.day ∧
    (sleepDetailedUpdate s row).sleep_score = row.sleep_score ∧
    (sleepDetailedUpdate s row).activity_score = row.activity_score ∧
    (sleepDetailedUpdate s row).steps = row.steps ∧
    (sleepDetailedUpdate s row).total_calories = row.total_calories ∧
    (sleepDetailedUpdate s row).active_calories = row.active_calories ∧
    (sleepDetailedUpdate s row).readiness_score = row.readiness_score ∧
    (sleepDetailedUpdate s row).stress_high_min = row.stress_high_min ∧
    (sleepDetailedUpdate s row).recovery_high_min = row.recovery_high_min ∧
    (sleepDetailedUpdate s row).resilience_level = row.resilience_level ∧
    (sleepDetailedUpdate s row).spo2_avg = row.spo2_avg ∧
    (sleepDetailedUpdate s row).breathing_disturbance_index =
      row.breathing_disturbance_index ∧
    (sleepDetailedUpdate s row).cardiovascular_age = row.cardiovascular_age ∧
    (sleepDetailedUpdate s row).vo2_max = row.vo2_max ∧
    (sleepDetailedUpdate s row).workout_count = row.workout_count ∧
    (sleepDetailedUpdate s row).workout_intensity_score =
      row.workout_intensity_score ∧
    (sleepDetailedUpdate s row).bedtime_clock_min = row.bedtime_clock_min ∧
    (sleepDetailedUpdate s row).wake_clock_min = row.wake_clock_min ∧
    (sleepDetailedUpdate s row).midsleep_clock_min = row.midsleep_clock_min ∧
    (sleepDetailedUpdate s row).bedtime_deviation_min =
      row.bedtime_deviation_min := by
  rw [sleepDetailedUpdate]
  split
  · split <;> simp
  · simp

/-- The second pass touches only the four derived clock fields. -/
theorem augmentRow_preserves (med : Option ℚ) (row : DailyRow) :
    (augmentRow med row).day = row.day ∧
    (augmentRow med row).sleep_score = row.sleep_score ∧
    (augmentRow med row).activity_score = row.activity_score ∧
    (augmentRow med row).steps = row.steps ∧
    (augmentRow med row).total_calories = row.total_calories ∧
    (augmentRow med row).active_calories = row.active_calories ∧
    (augmentRow med row).readiness_score = row.readiness_score ∧
    (augmentRow med row).stress_high_min = row.stress_high_min ∧
    (augmentRow med row).recovery_high_min = row.recovery_high_min ∧
    (augmentRow med row).resilience_level = row.resilience_level ∧
    (augmentRow med row).spo2_avg = row.spo2_avg ∧
    (augmentRow med row).breathing_disturbance_index =
      row.breathing_disturbance_index ∧
    (augmentRow med row).cardiovascular_age = row.cardiovascular_age ∧
    (augmentRow med row).vo2_max = row.vo2_max ∧
    (augmentRow med row).workout_count = row.workout_count ∧
    (augmentRow med row).workout_intensity_score =
      row.workout_intensity_score ∧
    (augmentRow med row).sleep_duration_h = row.sleep_duration_h ∧
    (augmentRow med row).sleep_efficiency = row.sleep_efficiency ∧
    (augmentRow med row).avg_hr = row.avg_hr ∧
    (augmentRow med row).avg_hrv = row.avg_hrv ∧
    (augmentRow med row).temperature_delta = row.temperature_delta ∧
    (augmentRow med row).respiratory_rate = row.respiratory_rate ∧
    (augmentRow med row).deep_pct = row.deep_pct ∧
    (augmentRow med row).rem_pct = row.rem_pct ∧
    (augmentRow med row).light_pct = row.light_pct ∧
    (augmentRow med row).awake_pct = row.awake_pct ∧
    (augmentRow med row).bedtime_start = row.bedtime_start ∧
    (augmentRow med row).bedtime_end = row.bedtime_end := by
  simp only [augmentRow]
  rcases hbs : clockMinutes row.bedtime_start with _ | b <;>
    rcases hd : row.sleep_duration_h with _ | dur <;>
    rcases med with _ | m <;>
    simp [hbs, hd]

/-- With no bedtime data the second pass leaves all four derived clock
fields absent. -/
theorem augmentRow_absent (med : Option ℚ) (row : DailyRow)
    (h1 : row.bedtime_start = none) (h2 : row.bedtime_end = none)
    (h3 : row.midsleep_clock_min = none)
    (h4 : row.bedtime_deviation_min = none) :
    (augmentRow med row).bedtime_clock_min = none ∧
    (augmentRow med row).wake_clock_min = none ∧
    (augmentRow med row).midsleep_clock_min = none ∧
    (augmentRow med row).bedtime_deviation_min = none := by
  simp only [augmentRow, h1, h2]
  cases med <;> simp [h3, h4, clockMinutes]

/-- Day membership in the workout aggregation map. -/
theorem workoutByDay_keys (ws : List WorkoutRec) (d : ℤ) :
    d ∈ (workoutByDay ws).map (·.1) ↔ d ∈ ws.map (·.day) := by
  have aux : ∀ (ws : List WorkoutRec) (acc : List (ℤ × ℚ × ℚ)) (d : ℤ),
      d ∈ (ws.foldl (fun acc w =>
        if (acc.find? (fun e => decide (e.1 = w.day))).isSome then
          acc.map (fun e =>
            if e.1 = w.day then (e.1, e.2.1 + 1, e.2.2 + workoutWeight w) else e)
        else acc ++ [(w.day, 1, workoutWeight w)]) acc).map (·.1) ↔
      d ∈ acc.map (·.1) ∨ d ∈ ws.map (·.day) := by
    intro ws
    induction ws with
    | nil => simp
    | cons w t ih =>
      intro acc d
      rw [List.foldl_cons, ih]
      by_cases hfound : (acc.find? (fun e => decide (e.1 = w.day))).isSome
      · rw [if_pos hfound]
        have hkeys : (acc.map (fun e =>
            if e.1 = w.day then (e.1, e.2.1 + 1, e.2.2 + workoutWeight w)
            else e)).map (·.1) = acc.map (·.1) := by
          rw [List.map_map]
          refine List.map_congr_left ?_
          intro e _
          by_cases he : e.1 = w.day <;> simp [he]
        have hwmem : w.day ∈ acc.map (·.1) := by
          rw [List.find?_isSome] at hfound
          obtain ⟨e, he, hp⟩ := hfound
          rw [decide_eq_true_eq] at hp
          exact hp ▸ List.mem_map_of_mem (·.1) he
        rw [hkeys]
        constructor
        · rintro (h | h)
          · exact Or.inl h
          · exact Or.inr (List.mem_cons_of_mem _ h)
        · rintro (h | h)
          · exact Or.inl h
          · rw [List.map_cons, List.mem_cons] at h
            rcases h with rfl | h
            · exact Or.inl hwmem
            · exact Or.inr h
      · rw [if_neg hfound]
        simp only [List.map_append, List.mem_append, List.map_cons,
          List.map_nil, List.mem_singleton, List.mem_cons]
        tauto
  rw [workoutByDay]
  rw [aux ws [] d]
  simp

/-- The absence invariant holds for every row of the first-pass day map. -/
theorem buildRawRows_inv (input : DashboardsInput) :
    ∀ r ∈ buildRawRows input, rowAbsence input r := by
  have h0 : ∀ r ∈ ([] : List DailyRow), rowAbsence input r := by simp
  have h1 : ∀ r ∈ mergeSleep input.sleep [], rowAbsence input r := by
    rw [mergeSleep]
    refine foldUpsert_inv (fun d => d.day)
      (fun d row => { row with sleep_score := some d.score }) input.sleep
      ?_ ?_ input.sleep (fun a ha => ha) [] h0
    · intro a ha r hday hP
      obtain ⟨-, p2, p3, p4, p5, p6, p7, p8, p9, p10, b1, b2, b3, b4⟩ := hP
      refine ⟨?_, p2, p3, p4, p5, p6, p7, p8, p9, p10, b1, b2, b3, b4⟩
      intro h
      exfalso
      apply h
      show r.day ∈ _
      rw [hday]
      exact List.mem_map_of_mem (·.day) ha
    · intro a ha
      refine ⟨?_, fun _ => ⟨rfl, rfl, rfl, rfl⟩, fun _ => rfl,
        fun _ => ⟨rfl, rfl⟩, fun _ => rfl, fun _ => ⟨rfl, rfl⟩, fun _ => rfl,
        fun _ => rfl, fun _ => ⟨rfl, rfl⟩,
        fun _ => ⟨rfl, rfl, rfl, rfl, rfl, rfl, rfl, rfl, rfl, rfl, rfl, rfl⟩,
        rfl, rfl, rfl, rfl⟩
      intro h
      exact absurd (List.mem_map_of_mem (·.day) ha) h
  have h2 : ∀ r ∈ mergeActivity input.activity (mergeSleep input.sleep []),
      rowAbsence input r := by
    rw [mergeActivity]
    refine foldUpsert_inv (fun d => d.day)
      (fun d row => { row with
        activity_score := some d.score
        steps := some d.steps
        total_calories := some d.total_calories
        active_calories := some d.active_calories }) input.activity
      ?_ ?_ input.activity (fun a ha => ha) _ h1
    · intro a ha r hday hP
      obtain ⟨p1, -, p3, p4, p5, p6, p7, p8, p9, p10, b1, b2, b3, b4⟩ := hP
      refine ⟨p1, ?_, p3, p4, p5, p6, p7, p8, p9, p10, b1, b2, b3, b4⟩
      intro h
      exfalso
      apply h
      show r.day ∈ _
      rw [hday]
      exact List.mem_map_of_mem (·.day) ha
    · intro a ha
      refine ⟨fun _ => rfl, ?_, fun _ => rfl,
        fun _ => ⟨rfl, rfl⟩, fun _ => rfl, fun _ => ⟨rfl, rfl⟩, fun _ => rfl,
        fun _ => rfl, fun _ => ⟨rfl, rfl⟩,
        fun _ => ⟨rfl, rfl, rfl, rfl, rfl, rfl, rfl, rfl, rfl, rfl, rfl, rfl⟩,
        rfl, rfl, rfl, rfl⟩
      intro h
      exact absurd (List.mem_map_of_mem (·.day) ha) h
  have h3 : ∀ r ∈ mergeReadiness input.readiness (mergeActivity input.activity (mergeSleep input.sleep [])),
      rowAbsence input r := by
    rw [mergeReadiness]
    refine foldUpsert_inv (fun d => d.day)
      (fun d row => { row with readiness_score := some d.score }) input.readiness
      ?_ ?_ _ (fun a ha => ha) _ h2
    · intro a ha r hday hP
      obtain ⟨p1, p2, -, p4, p5, p6, p7, p8, p9, p10, b1, b2, b3, b4⟩ := hP
      refine ⟨p1, p2, ?_, p4, p5, p6, p7, p8, p9, p10, b1, b2, b3, b4⟩
      intro h
      exfalso
      apply h
      show r.day ∈ _
      rw [hday]
      exact List.mem_map_of_mem (·.day) ha
    · intro a ha
      refine ⟨fun _ => rfl, fun _ => ⟨rfl, rfl, rfl, rfl⟩, ?_, fun _ => ⟨rfl, rfl⟩, fun _ => rfl, fun _ => ⟨rfl, rfl⟩, fun _ => rfl, fun _ => rfl, fun _ => ⟨rfl, rfl⟩, fun _ => ⟨rfl, rfl, rfl, rfl, rfl, rfl, rfl, rfl, rfl, rfl, rfl, rfl⟩, rfl, rfl, rfl, rfl⟩
      intro h
      exact absurd (List.mem_map_of_mem (·.day) ha) h
  have h4 : ∀ r ∈ mergeStress input.stress (mergeReadiness input.readiness (mergeActivity input.activity (mergeSleep input.sleep []))),
      rowAbsence input r := by
    rw [mergeStress]
    refine foldUpsert_inv (fun d => d.day)
      (fun d row => { row with
        stress_high_min := some (d.stress_high / 60)
        recovery_high_min := some (d.recovery_high / 60) }) input.stress
      ?_ ?_ _ (fun a ha => ha) _ h3
    · intro a ha r hday hP
      obtain ⟨p1, p2, p3, -, p5, p6, p7, p8, p9, p10, b1, b2, b3, b4⟩ := hP
      refine ⟨p1, p2, p3, ?_, p5, p6, p7, p8, p9, p10, b1, b2, b3, b4⟩
      intro h
      exfalso
      apply h
      show r.day ∈ _
      rw [hday]
      exact List.mem_map_of_mem (·.day) ha
    · intro a ha
      refine ⟨fun _ => rfl, fun _ => ⟨rfl, rfl, rfl, rfl⟩, fun _ => rfl, ?_, fun _ => rfl, fun _ => ⟨rfl, rfl⟩, fun _ => rfl, fun _ => rfl, fun _ => ⟨rfl, rfl⟩, fun _ => ⟨rfl, rfl, rfl, rfl, rfl, rfl, rfl, rfl, rfl, rfl, rfl, rfl⟩, rfl, rfl, rfl, rfl⟩
      intro h
      exact absurd (List.mem_map_of_mem (·.day) ha) h
  have h5 : ∀ r ∈ mergeResilience input.resilience (mergeStress input.stress (mergeReadiness input.readiness (mergeActivity input.activity (mergeSleep input.sleep [])))),
      rowAbsence input r := by
    rw [mergeResilience]
    refine foldUpsert_inv (fun d => d.day)
      (fun d row => { row with resilience_level := some d.level }) input.resilience
      ?_ ?_ _ (fun a ha => ha) _ h4
    · intro a ha r hday hP
      obtain ⟨p1, p2, p3, p4, -, p6, p7, p8, p9, p10, b1, b2, b3, b4⟩ := hP
      refine ⟨p1, p2, p3, p4, ?_, p6, p7, p8, p9, p10, b1, b2, b3, b4⟩
      intro h
      exfalso
      apply h
      show r.day ∈ _
      rw [hday]
      exact List.mem_map_of_mem (·.day) ha
    · intro a ha
      refine ⟨fun _ => rfl, fun _ => ⟨rfl, rfl, rfl, rfl⟩, fun _ => rfl, fun _ => ⟨rfl, rfl⟩, ?_, fun _ => ⟨rfl, rfl⟩, fun _ => rfl, fun _ => rfl, fun _ => ⟨rfl, rfl⟩, fun _ => ⟨rfl, rfl, rfl, rfl, rfl, rfl, rfl, rfl, rfl, rfl, rfl, rfl⟩, rfl, rfl, rfl, rfl⟩
      intro h
      exact absurd (List.mem_map_of_mem (·.day) ha) h
  have h6 : ∀ r ∈ mergeSpo2 input.spo2 (mergeResilience input.resilience (mergeStress input.stress (mergeReadiness input.readiness (mergeActivity input.activity (mergeSleep input.sleep []))))),
      rowAbsence input r := by
    rw [mergeSpo2]
    refine foldUpsert_inv (fun d => d.day)
      (fun d row => { row with
        spo2_avg := d.spo2_avg
        breathing_disturbance_index := d.breathing_disturbance_index }) input.spo2
      ?_ ?_ _ (fun a ha => ha) _ h5
    · intro a ha r hday hP
      obtain ⟨p1, p2, p3, p4, p5, -, p7, p8, p9, p10, b1, b2, b3, b4⟩ := hP
      refine ⟨p1, p2, p3, p4, p5, ?_, p7, p8, p9, p10, b1, b2, b3, b4⟩
      intro h
      exfalso
      apply h
      show r.day ∈ _
      rw [hday]
      exact List.mem_map_of_mem (·.day) ha
    · intro a ha
      refine ⟨fun _ => rfl, fun _ => ⟨rfl, rfl, rfl, rfl⟩, fun _ => rfl, fun _ => ⟨rfl, rfl⟩, fun _ => rfl, ?_, fun _ => rfl, fun _ => rfl, fun _ => ⟨rfl, rfl⟩, fun _ => ⟨rfl, rfl, rfl, rfl, rfl, rfl, rfl, rfl, rfl, rfl, rfl, rfl⟩, rfl, rfl, rfl, rfl⟩
      intro h
      exact absurd (List.mem_map_of_mem (·.day) ha) h
  have h7 : ∀ r ∈ mergeCardioAge input.cardioAge (mergeSpo2 input.spo2 (mergeResilience input.resilience (mergeStress input.stress (mergeReadiness input.readiness (mergeActivity input.activity (mergeSleep input.sleep [])))))),
      rowAbsence input r := by
    rw [mergeCardioAge]
    refine foldUpsert_inv (fun d => d.day)
      (fun d row => { row with cardiovascular_age := some d.cardiovascular_age }) input.cardioAge
      ?_ ?_ _ (fun a ha => ha) _ h6
    · intro a ha r hday hP
      obtain ⟨p1, p2, p3, p4, p5, p6, -, p8, p9, p10, b1, b2, b3, b4⟩ := hP
      refine ⟨p1, p2, p3, p4, p5, p6, ?_, p8, p9, p10, b1, b2, b3, b4⟩
      intro h
      exfalso
      apply h
      show r.day ∈ _
      rw [hday]
      exact List.mem_map_of_mem (·.day) ha
    · intro a ha
      refine ⟨fun _ => rfl, fun _ => ⟨rfl, rfl, rfl, rfl⟩, fun _ => rfl, fun _ => ⟨rfl, rfl⟩, fun _ => rfl, fun _ => ⟨rfl, rfl⟩, ?_, fun _ => rfl, fun _ => ⟨rfl, rfl⟩, fun _ => ⟨rfl, rfl, rfl, rfl, rfl, rfl, rfl, rfl, rfl, rfl, rfl, rfl⟩, rfl, rfl, rfl, rfl⟩
      intro h
      exact absurd (List.mem_map_of_mem (·.day) ha) h
  have h8 : ∀ r ∈ mergeVo2Max input.vo2Max (mergeCardioAge input.cardioAge (mergeSpo2 input.spo2 (mergeResilience input.resilience (mergeStress input.stress (mergeReadiness input.readiness (mergeActivity input.activity (mergeSleep input.sleep []))))))),
      rowAbsence input r := by
    rw [mergeVo2Max]
    refine foldUpsert_inv (fun d => d.day)
      (fun d row => { row with vo2_max := some d.vo2_max }) input.vo2Max
      ?_ ?_ _ (fun a ha => ha) _ h7
    · intro a ha r hday hP
      obtain ⟨p1, p2, p3, p4, p5, p6, p7, -, p9, p10, b1, b2, b3, b4⟩ := hP
      refine ⟨p1, p2, p3, p4, p5, p6, p7, ?_, p9, p10, b1, b2, b3, b4⟩
      intro h
      exfalso
      apply h
      show r.day ∈ _
      rw [hday]
      exact List.mem_map_of_mem (·.day) ha
    · intro a ha
      refine ⟨fun _ => rfl, fun _ => ⟨rfl, rfl, rfl, rfl⟩, fun _ => rfl, fun _ => ⟨rfl, rfl⟩, fun _ => rfl, fun _ => ⟨rfl, rfl⟩, fun _ => rfl, ?_, fun _ => ⟨rfl, rfl⟩, fun _ => ⟨rfl, rfl, rfl, rfl, rfl, rfl, rfl, rfl, rfl, rfl, rfl, rfl⟩, rfl, rfl, rfl, rfl⟩
      intro h
      exact absurd (List.mem_map_of_mem (·.day) ha) h
  have h9 : ∀ r ∈ mergeSleepDetailed input.sleepDetailed (mergeVo2Max input.vo2Max (mergeCardioAge input.cardioAge (mergeSpo2 input.spo2 (mergeResilience input.resilience (mergeStress input.stress (mergeReadiness input.readiness (mergeActivity input.activity (mergeSleep input.sleep [])))))))),
      rowAbsence input r := by
    rw [mergeSleepDetailed]
    refine foldUpsert_inv (fun s => s.day) (fun s => sleepDetailedUpdate s)
      input.sleepDetailed ?_ ?_ _ (fun a ha => ha) _ h8
    · intro a ha r hday hP
      show rowAbsence input (sleepDetailedUpdate a r)
      obtain ⟨p1, p2, p3, p4, p5, p6, p7, p8, p9, -, b1, b2, b3, b4⟩ := hP
      obtain ⟨e0, e1, e2, e3, e4, e5, e6, e7, e8, e9, e10, e11, e12, e13, e14, e15, e16, e17, e18, e19⟩ := sleepDetailedUpdate_preserves a r
      rw [rowAbsence, e0, e1, e2, e3, e4, e5, e6, e7, e8, e9, e10, e11, e12, e13, e14, e15, e16, e17, e18, e19]
      refine ⟨p1, p2, p3, p4, p5, p6, p7, p8, p9, ?_, b1, b2, b3, b4⟩
      intro h
      exfalso
      apply h
      rw [hday]
      exact List.mem_map_of_mem (·.day) ha
    · intro a ha
      show rowAbsence input (sleepDetailedUpdate a { day := a.day })
      obtain ⟨e0, e1, e2, e3, e4, e5, e6, e7, e8, e9, e10, e11, e12, e13, e14, e15, e16, e17, e18, e19⟩ := sleepDetailedUpdate_preserves a { day := a.day }
      refine ⟨fun _ => e1, fun _ => ⟨e2, e3, e4, e5⟩, fun _ => e6, fun _ => ⟨e7, e8⟩, fun _ => e9, fun _ => ⟨e10, e11⟩, fun _ => e12, fun _ => e13, fun _ => ⟨e14, e15⟩, ?_, e16, e17, e18, e19⟩
      intro h
      rw [e0] at h
      exact absurd (List.mem_map_of_mem (·.day) ha) h
  have h10 : ∀ r ∈ mergeWorkouts input.workouts (mergeSleepDetailed input.sleepDetailed (mergeVo2Max input.vo2Max (mergeCardioAge input.cardioAge (mergeSpo2 input.spo2 (mergeResilience input.resilience (mergeStress input.stress (mergeReadiness input.readiness (mergeActivity input.activity (mergeSleep input.sleep []))))))))),
      rowAbsence input r := by
    rw [mergeWorkouts]
    refine foldUpsert_inv (fun e => e.1)
      (fun e row => { row with
        workout_count := some e.2.1
        workout_intensity_score := some e.2.2 }) (workoutByDay input.workouts)
      ?_ ?_ _ (fun a ha => ha) _ h9
    · intro a ha r hday hP
      obtain ⟨p1, p2, p3, p4, p5, p6, p7, p8, -, p10, b1, b2, b3, b4⟩ := hP
      refine ⟨p1, p2, p3, p4, p5, p6, p7, p8, ?_, p10, b1, b2, b3, b4⟩
      intro h
      exfalso
      apply h
      show r.day ∈ _
      rw [hday]
      exact (workoutByDay_keys input.workouts a.1).mp
        (List.mem_map_of_mem (·.1) ha)
    · intro a ha
      refine ⟨fun _ => rfl, fun _ => ⟨rfl, rfl, rfl, rfl⟩, fun _ => rfl, fun _ => ⟨rfl, rfl⟩, fun _ => rfl, fun _ => ⟨rfl, rfl⟩, fun _ => rfl, fun _ => rfl, ?_, fun _ => ⟨rfl, rfl, rfl, rfl, rfl, rfl, rfl, rfl, rfl, rfl, rfl, rfl⟩, rfl, rfl, rfl, rfl⟩
      intro h
      exact absurd ((workoutByDay_keys input.workouts a.1).mp
        (List.mem_map_of_mem (·.1) ha)) h
  intro r hr
  rw [buildRawRows] at hr
  exact h10 r hr

/-- Day membership after the sleep-score loop. -/
theorem mergeSleep_days (recs : List DailySleepRec) (m : List DailyRow)
    (d : ℤ) :
    d ∈ (mergeSleep recs m).map (·.day) ↔
      d ∈ m.map (·.day) ∨ d ∈ recs.map (·.day) :=
  foldUpsert_days (fun r : DailySleepRec => r.day)
    (fun (d : DailySleepRec) (row : DailyRow) => { row with sleep_score := some d.score })
    (fun _ _ => rfl) recs m d

/-- Day membership after the activity loop. -/
theorem mergeActivity_days (recs : List DailyActivityRec) (m : List DailyRow)
    (d : ℤ) :
    d ∈ (mergeActivity recs m).map (·.day) ↔
      d ∈ m.map (·.day) ∨ d ∈ recs.map (·.day) :=
  foldUpsert_days (fun r : DailyActivityRec => r.day)
    (fun (d : DailyActivityRec) (row : DailyRow) => { row with
      activity_score := some d.score
      steps := some d.steps
      total_calories := some d.total_calories
      active_calories := some d.active_calories })
    (fun _ _ => rfl) recs m d

/-- Day membership after the readiness loop. -/
theorem mergeReadiness_days (recs : List DailyReadinessRec) (m : List DailyRow)
    (d : ℤ) :
    d ∈ (mergeReadiness recs m).map (·.day) ↔
      d ∈ m.map (·.day) ∨ d ∈ recs.map (·.day) :=
  foldUpsert_days (fun r : DailyReadinessRec => r.day)
    (fun (d : DailyReadinessRec) (row : DailyRow) => { row with readiness_score := some d.score })
    (fun _ _ => rfl) recs m d

/-- Day membership after the stress loop. -/
theorem mergeStress_days (recs : List DailyStressRec) (m : List DailyRow)
    (d : ℤ) :
    d ∈ (mergeStress recs m).map (·.day) ↔
      d ∈ m.map (·.day) ∨ d ∈ recs.map (·.day) :=
  foldUpsert_days (fun r : DailyStressRec => r.day)
    (fun (d : DailyStressRec) (row : DailyRow) => { row with
      stress_high_min := some (d.stress_high / 60)
      recovery_high_min := some (d.recovery_high / 60) })
    (fun _ _ => rfl) recs m d

/-- Day membership after the resilience loop. -/
theorem mergeResilience_days (recs : List DailyResilienceRec)
    (m : List DailyRow) (d : ℤ) :
    d ∈ (mergeResilience recs m).map (·.day) ↔
      d ∈ m.map (·.day) ∨ d ∈ recs.map (·.day) :=
  foldUpsert_days (fun r : DailyResilienceRec => r.day)
    (fun (d : DailyResilienceRec) (row : DailyRow) => { row with resilience_level := some d.level })
    (fun _ _ => rfl) recs m d

/-- Day membership after the SpO2 loop. -/
theorem mergeSpo2_days (recs : List DailySpo2Rec) (m : List DailyRow)
    (d : ℤ) :
    d ∈ (mergeSpo2 recs m).map (·.day) ↔
      d ∈ m.map (·.day) ∨ d ∈ recs.map (·.day) :=
  foldUpsert_days (fun r : DailySpo2Rec => r.day)
    (fun (d : DailySpo2Rec) (row : DailyRow) => { row with
      spo2_avg := d.spo2_avg
      breathing_disturbance_index := d.breathing_disturbance_index })
    (fun _ _ => rfl) recs m d

/-- Day membership after the cardiovascular-age loop. -/
theorem mergeCardioAge_days (recs : List DailyCardioAgeRec)
    (m : List DailyRow) (d : ℤ) :
    d ∈ (mergeCardioAge recs m).map (·.day) ↔
      d ∈ m.map (·.day) ∨ d ∈ recs.map (·.day) :=
  foldUpsert_days (fun r : DailyCardioAgeRec => r.day)
    (fun (d : DailyCardioAgeRec) (row : DailyRow) => { row with cardiovascular_age := some d.cardiovascular_age })
    (fun _ _ => rfl) recs m d

/-- Day membership after the VO2-max loop. -/
theorem mergeVo2Max_days (recs : List VO2MaxRec) (m : List DailyRow)
    (d : ℤ) :
    d ∈ (mergeVo2Max recs m).map (·.day) ↔
      d ∈ m.map (·.day) ∨ d ∈ recs.map (·.day) :=
  foldUpsert_days (fun r : VO2MaxRec => r.day)
    (fun (d : VO2MaxRec) (row : DailyRow) => { row with vo2_max := some d.vo2_max })
    (fun _ _ => rfl) recs m d

/-- Day membership after the detailed-sleep loop. -/
theorem mergeSleepDetailed_days (recs : List SleepRec) (m : List DailyRow)
    (d : ℤ) :
    d ∈ (mergeSleepDetailed recs m).map (·.day) ↔
      d ∈ m.map (·.day) ∨ d ∈ recs.map (·.day) :=
  foldUpsert_days (fun s : SleepRec => s.day) (fun s => sleepDetailedUpdate s)
    (fun a r => (sleepDetailedUpdate_preserves a r).1) recs m d

/-- Day membership after the workout loop. -/
theorem mergeWorkouts_days (ws : List WorkoutRec) (m : List DailyRow)
    (d : ℤ) :
    d ∈ (mergeWorkouts ws m).map (·.day) ↔
      d ∈ m.map (·.day) ∨ d ∈ ws.map (·.day) :=
  (foldUpsert_days (fun e : ℤ × ℚ × ℚ => e.1)
    (fun (e : ℤ × ℚ × ℚ) (row : DailyRow) => { row with
      workout_count := some e.2.1
      workout_intensity_score := some e.2.2 })
    (fun _ _ => rfl) (workoutByDay ws) m d).trans
    (or_congr Iff.rfl (workoutByDay_keys ws d))

/-- The first-pass day map holds exactly the input days. -/
theorem buildRawRows_days (input : DashboardsInput) (d : ℤ) :
    d ∈ (buildRawRows input).map (·.day) ↔ d ∈ inputDays input := by
  rw [buildRawRows, mergeWorkouts_days, mergeSleepDetailed_days,
    mergeVo2Max_days, mergeCardioAge_days, mergeSpo2_days,
    mergeResilience_days, mergeStress_days, mergeReadiness_days,
    mergeActivity_days, mergeSleep_days]
  simp only [List.map_nil, List.not_mem_nil, false_or]
  simp [inputDays, or_assoc]

/-- Day uniqueness survives each loop. -/
theorem mergeSleep_nodup (recs : List DailySleepRec) (m : List DailyRow)
    (h : (m.map (·.day)).Nodup) : ((mergeSleep recs m).map (·.day)).Nodup :=
  foldUpsert_nodup (fun r : DailySleepRec => r.day)
    (fun (d : DailySleepRec) (row : DailyRow) => { row with sleep_score := some d.score })
    (fun _ _ => rfl) recs m h

theorem mergeActivity_nodup (recs : List DailyActivityRec) (m : List DailyRow)
    (h : (m.map (·.day)).Nodup) :
    ((mergeActivity recs m).map (·.day)).Nodup :=
  foldUpsert_nodup (fun r : DailyActivityRec => r.day)
    (fun (d : DailyActivityRec) (row : DailyRow) => { row with
      activity_score := some d.score
      steps := some d.steps
      total_calories := some d.total_calories
      active_calories := some d.active_calories })
    (fun _ _ => rfl) recs m h

theorem mergeReadiness_nodup (recs : List DailyReadinessRec)
    (m : List DailyRow) (h : (m.map (·.day)).Nodup) :
    ((mergeReadiness recs m).map (·.day)).Nodup :=
  foldUpsert_nodup (fun r : DailyReadinessRec => r.day)
    (fun (d : DailyReadinessRec) (row : DailyRow) => { row with readiness_score := some d.score })
    (fun _ _ => rfl) recs m h

theorem mergeStress_nodup (recs : List DailyStressRec) (m : List DailyRow)
    (h : (m.map (·.day)).Nodup) : ((mergeStress recs m).map (·.day)).Nodup :=
  foldUpsert_nodup (fun r : DailyStressRec => r.day)
    (fun (d : DailyStressRec) (row : DailyRow) => { row with
      stress_high_min := some (d.stress_high / 60)
      recovery_high_min := some (d.recovery_high / 60) })
    (fun _ _ => rfl) recs m h

theorem mergeResilience_nodup (recs : List DailyResilienceRec)
    (m : List DailyRow) (h : (m.map (·.day)).Nodup) :
    ((mergeResilience recs m).map (·.day)).Nodup :=
  foldUpsert_nodup (fun r : DailyResilienceRec => r.day)
    (fun (d : DailyResilienceRec) (row : DailyRow) => { row with resilience_level := some d.level })
    (fun _ _ => rfl) recs m h

theorem mergeSpo2_nodup (recs : List DailySpo2Rec) (m : List DailyRow)
    (h : (m.map (·.day)).Nodup) : ((mergeSpo2 recs m).map (·.day)).Nodup :=
  foldUpsert_nodup (fun r : DailySpo2Rec => r.day)
    (fun (d : DailySpo2Rec) (row : DailyRow) => { row with
      spo2_avg := d.spo2_avg
      breathing_disturbance_index := d.breathing_disturbance_index })
    (fun _ _ => rfl) recs m h

theorem mergeCardioAge_nodup (recs : List DailyCardioAgeRec)
    (m : List DailyRow) (h : (m.map (·.day)).Nodup) :
    ((mergeCardioAge recs m).map (·.day)).Nodup :=
  foldUpsert_nodup (fun r : DailyCardioAgeRec => r.day)
    (fun (d : DailyCardioAgeRec) (row : DailyRow) => { row with cardiovascular_age := some d.cardiovascular_age })
    (fun _ _ => rfl) recs m h

theorem mergeVo2Max_nodup (recs : List VO2MaxRec) (m : List DailyRow)
    (h : (m.map (·.day)).Nodup) : ((mergeVo2Max recs m).map (·.day)).Nodup :=
  foldUpsert_nodup (fun r : VO2MaxRec => r.day)
    (fun (d : VO2MaxRec) (row : DailyRow) => { row with vo2_max := some d.vo2_max })
    (fun _ _ => rfl) recs m h

theorem mergeSleepDetailed_nodup (recs : List SleepRec) (m : List DailyRow)
    (h : (m.map (·.day)).Nodup) :
    ((mergeSleepDetailed recs m).map (·.day)).Nodup :=
  foldUpsert_nodup (fun s : SleepRec => s.day) (fun s => sleepDetailedUpdate s)
    (fun a r => (sleepDetailedUpdate_preserves a r).1) recs m h

theorem mergeWorkouts_nodup (ws : List WorkoutRec) (m : List DailyRow)
    (h : (m.map (·.day)).Nodup) : ((mergeWorkouts ws m).map (·.day)).Nodup :=
  foldUpsert_nodup (fun e : ℤ × ℚ × ℚ => e.1)
    (fun (e : ℤ × ℚ × ℚ) (row : DailyRow) => { row with
      workout_count := some e.2.1
      workout_intensity_score := some e.2.2 })
    (fun _ _ => rfl) (workoutByDay ws) m h

/-- Every day appears once in the first-pass map. -/
theorem buildRawRows_nodup (input : DashboardsInput) :
    ((buildRawRows input).map (·.day)).Nodup := by
  rw [buildRawRows]
  exact mergeWorkouts_nodup _ _ (mergeSleepDetailed_nodup _ _
    (mergeVo2Max_nodup _ _ (mergeCardioAge_nodup _ _ (mergeSpo2_nodup _ _
    (mergeResilience_nodup _ _ (mergeStress_nodup _ _
    (mergeReadiness_nodup _ _ (mergeActivity_nodup _ _
    (mergeSleep_nodup _ _ (by simp))))))))))

/-- C6: for every input, the daily-row output of `buildDashboards` is
strictly sorted by day — so `day` is ascending and uniquely identifies a
row, and a day appearing in any input category appears exactly once — its
day set is exactly the set of days appearing in some input category, and a
row whose day is missing from a category has every field that only that
category writes absent (`none`), not zero: the sleep score; the four
activity fields; the readiness score; the two stress minutes; the
resilience level; the two SpO2 fields; the cardiovascular age; the VO2 max;
the two workout aggregates; and the twelve detailed-sleep fields together
with the four clock fields derived from them in the second pass. -/
theorem buildDashboards_daily_rows_spec (input : DashboardsInput) :
    ((buildDashboards input).daily_rows.map (·.day)).Sorted (· < ·) ∧
    (∀ d : ℤ, d ∈ (buildDashboards input).daily_rows.map (·.day) ↔
      d ∈ inputDays input) ∧
    ∀ r ∈ (buildDashboards input).daily_rows,
      (r.day ∉ input.sleep.map (·.day) → r.sleep_score = none) ∧
      (r.day ∉ input.activity.map (·.day) → r.activity_score = none ∧
        r.steps = none ∧ r.total_calories = none ∧ r.active_calories = none) ∧
      (r.day ∉ input.readiness.map (·.day) → r.readiness_score = none) ∧
      (r.day ∉ input.stress.map (·.day) → r.stress_high_min = none ∧
        r.recovery_high_min = none) ∧
      (r.day ∉ input.resilience.map (·.day) → r.resilience_level = none) ∧
      (r.day ∉ input.spo2.map (·.day) → r.spo2_avg = none ∧
        r.breathing_disturbance_index = none) ∧
      (r.day ∉ input.cardioAge.map (·.day) → r.cardiovascular_age = none) ∧
      (r.day ∉ input.vo2Max.map (·.day) → r.vo2_max = none) ∧
      (r.day ∉ input.workouts.map (·.day) → r.workout_count = none ∧
        r.workout_intensity_score = none) ∧
      (r.day ∉ input.sleepDetailed.map (·.day) → r.sleep_duration_h = none ∧
        r.sleep_efficiency = none ∧ r.avg_hr = none ∧ r.avg_hrv = none ∧
        r.temperature_delta = none ∧ r.respiratory_rate = none ∧
        r.deep_pct = none ∧ r.rem_pct = none ∧ r.light_pct = none ∧
        r.awake_pct = none ∧ r.bedtime_start = none ∧ r.bedtime_end = none ∧
        r.bedtime_clock_min = none ∧ r.wake_clock_min = none ∧
        r.midsleep_clock_min = none ∧ r.bedtime_deviation_min = none) := by
  obtain ⟨med, hmed⟩ : ∃ m, (buildDashboards input).daily_rows =
      ((buildRawRows input).mergeSort (fun a b => decide (a.day ≤ b.day))).map
        (augmentRow m) := ⟨_, rfl⟩
  have hperm := List.mergeSort_perm (buildRawRows input)
    (fun a b => decide (a.day ≤ b.day))
  have hdays : (buildDashboards input).daily_rows.map (·.day) =
      ((buildRawRows input).mergeSort
        (fun a b => decide (a.day ≤ b.day))).map (·.day) := by
    rw [hmed, List.map_map]
    exact List.map_congr_left (fun r _ => (augmentRow_preserves med r).1)
  refine ⟨?_, ?_, ?_⟩
  · rw [hdays]
    have hpw : (((buildRawRows input).mergeSort
        (fun a b => decide (a.day ≤ b.day))).map (·.day)).Pairwise (· ≤ ·) := by
      rw [List.pairwise_map]
      have h : ((buildRawRows input).mergeSort
          (fun a b => decide (a.day ≤ b.day))).Pairwise
          (fun a b => decide (a.day ≤ b.day) = true) :=
        List.sorted_mergeSort
          (fun (a b c : DailyRow) (hab : decide (a.day ≤ b.day) = true)
              (hbc : decide (b.day ≤ c.day) = true) => decide_eq_true
            (le_trans (of_decide_eq_true hab) (of_decide_eq_true hbc)))
          (fun (a b : DailyRow) => by
            rcases le_total a.day b.day with h | h <;> simp [h])
          (buildRawRows input)
      exact h.imp (fun hab => of_decide_eq_true hab)
    have hnd : (((buildRawRows input).mergeSort
        (fun a b => decide (a.day ≤ b.day))).map (·.day)).Nodup :=
      ((hperm.map (·.day)).nodup_iff).mpr (buildRawRows_nodup input)
    exact List.Pairwise.imp (fun h => lt_of_le_of_ne h.1 h.2) (hpw.and hnd)
  · intro d
    rw [hdays, (hperm.map (·.day)).mem_iff]
    exact buildRawRows_days input d
  · intro r hr
    rw [hmed] at hr
    obtain ⟨r0, hr0, rfl⟩ := List.mem_map.mp hr
    obtain ⟨p1, p2, p3, p4, p5, p6, p7, p8, p9, p10, b1, b2, b3, b4⟩ :=
      buildRawRows_inv input r0 (hperm.mem_iff.mp hr0)
    obtain ⟨e0, e1, e2, e3, e4, e5, e6, e7, e8, e9, e10, e11, e12, e13, e14,
      e15, e16, e17, e18, e19, e20, e21, e22, e23, e24, e25, e26, e27⟩ :=
      augmentRow_preserves med r0
    rw [e0, e1, e2, e3, e4, e5, e6, e7, e8, e9, e10, e11, e12, e13, e14,
      e15, e16, e17, e18, e19, e20, e21, e22, e23, e24, e25, e26, e27]
    refine ⟨p1, p2, p3, p4, p5, p6, p7, p8, p9, ?_⟩
    intro h
    obtain ⟨q1, q2, q3, q4, q5, q6, q7, q8, q9, q10, q11, q12⟩ := p10 h
    obtain ⟨a1, a2, a3, a4⟩ := augmentRow_absent med r0 q11 q12 b3 b4
    exact ⟨q1, q2, q3, q4, q5, q6, q7, q8, q9, q10, q11, q12, a1, a2, a3, a4⟩

end Oura
